import Mathlib

/-
  Verification of the Telara real-time health-telemetry core.

  Shallow embedding of the Python sources:
    - src/api/database.py        (InMemoryVitalsStore, SpeedLayerAggregator,
                                  BatchWriteBuffer, VitalsRepository,
                                  AlertsRepository, BaselinesRepository)
    - src/stream-processor/flink_job.py  (MATCH_RECOGNIZE anomaly detectors)
    - src/api/predictions.py     (PredictionEngine)

  Numeric values are modelled over ℚ (the Python code uses floats; every
  claim checked here is about exact branch conditions and algebraic update
  rules, not float rounding).  Python dict fields that may be absent are
  Option ℚ; "absent" and "None" coincide.  Python truthiness tests
  (`if vital_data.get("heart_rate")`) are modelled explicitly: a value is
  truthy iff it is present and non-zero.
-/

namespace Telara

/-! ### Speed-layer aggregator (SpeedLayerAggregator, src/api/database.py)

Timestamps for the aggregator are integer milliseconds; the Python code
compares `datetime` values and converts ages to integer milliseconds, and
the freshness window is 10000 ms. -/

/-- The aggregatable metric set, from SpeedLayerAggregator.AGGREGATABLE_METRICS. -/
def AGGREGATABLE_METRICS : List String :=
  ["heart_rate", "hrv_ms", "spo2_percent", "skin_temp_c",
   "respiratory_rate", "activity_level", "steps_per_minute",
   "calories_per_minute", "sleep_quality"]

/-- Freshness window in milliseconds (SpeedLayerAggregator.FRESHNESS_WINDOW_MS). -/
def FRESHNESS_WINDOW_MS : Int := 10000

/-- An event as consumed by SpeedLayerAggregator.add_event: a source id, a
timestamp (ms), and a sparse field map of metric values. -/
structure SEvent where
  source : String
  ts : Int
  fields : List (String × ℚ)
deriving DecidableEq

/-- The latest value/timestamp recorded for one source of one metric. -/
structure Reading where
  value : ℚ
  ts : Int
deriving DecidableEq

/-- Per-metric map from source id to its latest reading
(`_latest_by_source[metric]`).  A Python dict keeps insertion order:
updating an existing key keeps its position, a new key is appended. -/
abbrev SourceMap := List (String × Reading)

/-- Update the latest reading of `src` in a source map, Python-dict style. -/
def updateSource (m : SourceMap) (src : String) (r : Reading) : SourceMap :=
  if m.any (fun p => p.1 = src) then
    m.map (fun p => if p.1 = src then (src, r) else p)
  else
    m ++ [(src, r)]

/-- The aggregator state `_latest_by_source`: one source map per metric. -/
abbrev AggState := List (String × SourceMap)

/-- SpeedLayerAggregator.add_event: for each aggregatable metric present in
the event, record the latest value for the event's source. -/
def addEvent (st : AggState) (e : SEvent) : AggState :=
  st.map (fun p =>
    match e.fields.lookup p.1 with
    | some v => (p.1, updateSource p.2 e.source ⟨v, e.ts⟩)
    | none => p)

/-- The initial aggregator state: every aggregatable metric, no readings. -/
def initAggState : AggState := AGGREGATABLE_METRICS.map (fun m => (m, []))

/-- The aggregator state after ingesting a sequence of events. -/
def ingestAll (events : List SEvent) : AggState := events.foldl addEvent initAggState

/-- A fresh reading as built in `_recompute_aggregated_state`. -/
structure FreshReading where
  source : String
  value : ℚ
  ts : Int
  age_ms : Int
deriving DecidableEq

/-- The fresh readings of one metric: readings whose age is strictly below
the freshness window.  The Python test `ts > cutoff or (now - ts).total_seconds()
< FRESHNESS_WINDOW_MS / 1000` is, at millisecond granularity, exactly
`now - ts < FRESHNESS_WINDOW_MS` (both disjuncts coincide). -/
def freshReadings (now : Int) (srcs : SourceMap) : List FreshReading :=
  srcs.filterMap (fun p =>
    if now - p.2.ts < FRESHNESS_WINDOW_MS then
      some ⟨p.1, p.2.value, p.2.ts, now - p.2.ts⟩
    else none)

/-- Ordering used by `fresh_readings.sort(key=..., reverse=True)`: newest
timestamp first. -/
def newestFirst (a b : FreshReading) : Prop := b.ts ≤ a.ts

instance : DecidableRel newestFirst :=
  fun a b => inferInstanceAs (Decidable (b.ts ≤ a.ts))

instance : IsTotal FreshReading newestFirst := ⟨fun a b => le_total b.ts a.ts⟩

instance : IsTrans FreshReading newestFirst := ⟨fun _ _ _ hab hbc => le_trans hbc hab⟩

/-- Python's list.sort is stable; a stable insertion sort by the same key
produces the same list. -/
def sortFresh (l : List FreshReading) : List FreshReading := List.insertionSort newestFirst l

/-- One metric's entry of the aggregated state (`new_state[metric]`);
display icons are omitted as pure formatting. -/
structure MetricAgg where
  value : ℚ
  sources : List String
  freshness_ms : Int
  reading_count : Nat
deriving DecidableEq

/-- Build a metric's aggregate from its descending-sorted fresh readings:
the best value is the most recent (head). -/
def aggOfFresh : List FreshReading → Option MetricAgg
  | [] => none
  | best :: rest =>
    some ⟨best.value, (best :: rest).map (fun r => r.source), best.age_ms, (best :: rest).length⟩

/-- SpeedLayerAggregator._recompute_aggregated_state: metrics with no fresh
reading are omitted entirely. -/
def recomputeAggregatedState (now : Int) (st : AggState) : List (String × MetricAgg) :=
  st.filterMap (fun p =>
    (aggOfFresh (sortFresh (freshReadings now p.2))).map (fun a => (p.1, a)))

/-! ### In-memory vitals ring (InMemoryVitalsStore, src/api/database.py)

Ring-store timestamps are integer seconds (the Python code subtracts
`datetime` values; sub-second resolution plays no role in any window or
routing decision modelled here); `minutes` converts at 60 s per minute. -/

/-- A vitals event/row: the identity and metric columns the modelled
operations read.  `ts` is the parsed event timestamp in seconds. -/
structure VEvent where
  event_id : String
  user_id : String
  ts : Int
  heart_rate : Option ℚ
  hrv_ms : Option ℚ
  spo2_percent : Option ℚ
  skin_temp_c : Option ℚ
  activity_level : Option ℚ
deriving DecidableEq

/-- The newest-to-oldest scan of InMemoryVitalsStore.get_recent: stop at the
first event older than the cutoff, collect events of the requested user.
The argument list is the ring reversed (newest first). -/
def ringScan (cutoff : Int) (user : String) : List VEvent → List VEvent
  | [] => []
  | v :: rest =>
    if v.ts < cutoff then []
    else if v.user_id = user then v :: ringScan cutoff user rest
    else ringScan cutoff user rest

/-- InMemoryVitalsStore.get_recent: the ring list is oldest-first (deque
append order); iteration is over `reversed(self._vitals)`. -/
def ringGetRecent (now : Int) (minutes : Int) (user : String) (ring : List VEvent) : List VEvent :=
  ringScan (now - minutes * 60) user ring.reverse

/-- The maximal suffix of the ring all of whose timestamps are within the
window (not older than the cutoff). -/
def inWindowSuffix (cutoff : Int) (ring : List VEvent) : List VEvent :=
  (ring.reverse.takeWhile (fun v => !decide (v.ts < cutoff))).reverse

/-- InMemoryVitalsStore.get_latest: newest event of the user. -/
def ringGetLatest (user : String) (ring : List VEvent) : Option VEvent :=
  ring.reverse.find? (fun v => v.user_id = user)

/-- Collect the truthy (present and non-zero) values of a field, as the
Python comprehension `[v.get(f) for v in vitals if v.get(f)]` does. -/
def truthyVals (f : VEvent → Option ℚ) (l : List VEvent) : List ℚ :=
  l.filterMap (fun v =>
    match f v with
    | some x => if x = 0 then none else some x
    | none => none)

/-- Average of a possibly-empty value list (`None` when empty). -/
def avgOpt (l : List ℚ) : Option ℚ :=
  if l.length = 0 then none else some (l.sum / (l.length : ℚ))

/-- Minimum of a possibly-empty value list. -/
def minOpt : List ℚ → Option ℚ
  | [] => none
  | x :: xs => some (xs.foldl min x)

/-- Maximum of a possibly-empty value list. -/
def maxOpt : List ℚ → Option ℚ
  | [] => none
  | x :: xs => some (xs.foldl max x)

/-- The statistics dictionary produced by the stats queries.  A key absent
from the Python dict (empty-ring `{"count": 0}` case) is `none`. -/
structure Stats where
  count : Nat
  avg_hr : Option ℚ
  min_hr : Option ℚ
  max_hr : Option ℚ
  avg_hrv : Option ℚ
  avg_spo2 : Option ℚ
  avg_temp : Option ℚ
  avg_activity : Option ℚ
deriving DecidableEq

/-- InMemoryVitalsStore.get_stats over the ring (speed layer). -/
def ringStats (now : Int) (minutes : Int) (user : String) (ring : List VEvent) : Stats :=
  let vitals := ringGetRecent now minutes user ring
  if vitals.length = 0 then ⟨0, none, none, none, none, none, none, none⟩
  else
    ⟨vitals.length,
     avgOpt (truthyVals (fun v => v.heart_rate) vitals),
     minOpt (truthyVals (fun v => v.heart_rate) vitals),
     maxOpt (truthyVals (fun v => v.heart_rate) vitals),
     avgOpt (truthyVals (fun v => v.hrv_ms) vitals),
     avgOpt (truthyVals (fun v => v.spo2_percent) vitals),
     avgOpt (truthyVals (fun v => v.skin_temp_c) vitals),
     avgOpt (truthyVals (fun v => v.activity_level) vitals)⟩

/-! ### Query routing (VitalsRepository, src/api/database.py)

The persistent store is represented by the outcome of talking to SQLite:
either the list of rows in the vitals table (query succeeds) or a database
error (the query raises). -/

/-- A failure of a SQLite operation (the `except Exception` cases). -/
inductive DbError where
  | failure
deriving DecidableEq

/-- A Python exception escaping a repository function.  `nameErrorStats`
is the NameError raised by `return stats` in VitalsRepository.get_stats,
where no variable `stats` is ever defined. -/
inductive PyError where
  | nameErrorStats
deriving DecidableEq

/-- Descending-timestamp order used by `ORDER BY timestamp DESC`. -/
def tsDescV (a b : VEvent) : Prop := b.ts ≤ a.ts

instance : DecidableRel tsDescV :=
  fun a b => inferInstanceAs (Decidable (b.ts ≤ a.ts))

/-- VitalsRepository._get_recent_from_sqlite on the table rows: user filter,
strict window filter (`timestamp > cutoff`), newest first.  SQL leaves the
order of equal timestamps unspecified; a fixed stable sort stands in. -/
def sqlGetRecent (now : Int) (minutes : Int) (user : String) (rows : List VEvent) : List VEvent :=
  List.insertionSort tsDescV
    (rows.filter (fun r => r.user_id = user && decide (now - minutes * 60 < r.ts)))

/-- VitalsRepository.get_recent: route by window size (threshold 30 min).
On the SQLite path a failing query is caught and `[]` returned. -/
def vitalsGetRecent (now : Int) (minutes : Int) (user : String) (ring : List VEvent)
    (sqlRes : Except DbError (List VEvent)) : List VEvent :=
  if minutes ≤ 30 then ringGetRecent now minutes user ring
  else
    match sqlRes with
    | .ok rows => sqlGetRecent now minutes user rows
    | .error _ => []

/-- VitalsRepository.get_latest: always the speed layer. -/
def vitalsGetLatest (user : String) (ring : List VEvent) : Option VEvent :=
  ringGetLatest user ring

/-- The non-NULL values of a column (SQL AVG/MIN/MAX ignore NULLs; unlike
the in-memory stats they do count zero values). -/
def nonNullVals (f : VEvent → Option ℚ) (l : List VEvent) : List ℚ :=
  l.filterMap f

/-- The SQLite aggregate row of VitalsRepository.get_stats (hours > 1):
COUNT(*) with AVG/MIN/MAX per column over the user's window. -/
def sqlStats (now : Int) (hours : Int) (user : String) (rows : List VEvent) : Stats :=
  let w := rows.filter (fun r => r.user_id = user && decide (now - hours * 3600 < r.ts))
  ⟨w.length,
   avgOpt (nonNullVals (fun v => v.heart_rate) w),
   minOpt (nonNullVals (fun v => v.heart_rate) w),
   maxOpt (nonNullVals (fun v => v.heart_rate) w),
   avgOpt (nonNullVals (fun v => v.hrv_ms) w),
   avgOpt (nonNullVals (fun v => v.spo2_percent) w),
   avgOpt (nonNullVals (fun v => v.skin_temp_c) w),
   avgOpt (nonNullVals (fun v => v.activity_level) w)⟩

/-- VitalsRepository.get_stats.  For hours ≤ 1 the ring aggregate is used
(`minutes = hours * 60`).  Otherwise SQLite is queried: on success the
aggregate SELECT always yields one row, which is returned; if the query
raises, the handler executes `return stats` — but no variable `stats`
exists in the function, so a NameError is raised and propagates. -/
def vitalsGetStats (now : Int) (hours : Int) (user : String) (ring : List VEvent)
    (sqlRes : Except DbError (List VEvent)) : Except PyError Stats :=
  if hours ≤ 1 then .ok (ringStats now (hours * 60) user ring)
  else
    match sqlRes with
    | .ok rows => .ok (sqlStats now hours user rows)
    | .error _ => .error .nameErrorStats

/-! ### Batch layer and alerts (BatchWriteBuffer.flush, AlertsRepository.insert)

`INSERT OR REPLACE` on a UNIQUE key deletes any conflicting row and appends
the new one; the table is modelled as its row list in physical order,
identifying rows by their column content (the hidden autoincrement id is
not part of the logical table state the spec describes). -/

/-- Upsert one vitals event keyed on the UNIQUE `event_id` column. -/
def upsertVital (tbl : List VEvent) (e : VEvent) : List VEvent :=
  tbl.filter (fun r => !(r.event_id = e.event_id : Bool)) ++ [e]

/-- BatchWriteBuffer.flush body: one bulk `INSERT OR REPLACE` of the drained
events (executemany applies them in order). -/
def flushVitals (tbl : List VEvent) (events : List VEvent) : List VEvent :=
  events.foldl upsertVital tbl

/-- A row of the alerts table (columns AlertsRepository.insert writes;
string payloads beyond identity are immaterial to the claims and kept). -/
structure AlertRow where
  alert_id : String
  user_id : String
  alert_type : String
  severity : String
  ts : ℚ
  avg_heart_rate : Option ℚ
  event_count : Option Int
deriving DecidableEq

/-- AlertsRepository.insert: `INSERT OR REPLACE` keyed on UNIQUE alert_id. -/
def insertAlert (tbl : List AlertRow) (a : AlertRow) : List AlertRow :=
  tbl.filter (fun r => !(r.alert_id = a.alert_id : Bool)) ++ [a]

/-! ### Baselines (InMemoryVitalsStore._update_baseline,
BaselinesRepository.auto_update_baseline / get_deviation_alert)

The update code stores `std_* = sqrt((1-α)·std_*² + α·(x-μ')²)` and only
ever reads the std back squared on the next update, so the accumulator
tracks the squares `stdSq_* = std_*²` to stay inside ℚ.  The deviation
checker reads a stored row whose std columns are plain numbers, so its row
type carries `std_*` directly. -/

/-- BaselinesRepository.EMA_ALPHA (also the alpha of the in-memory store). -/
def EMA_ALPHA : ℚ := 1/10

/-- EMA mean update guarded by Python truthiness: absent or zero readings
leave the mean untouched (`alpha * x + (1 - alpha) * old if x else old`). -/
def emaUpd (old : ℚ) (v : Option ℚ) : ℚ :=
  match v with
  | some x => if x ≠ 0 then EMA_ALPHA * x + (1 - EMA_ALPHA) * old else old
  | none => old

/-- Squared version of the running-std update, same truthiness guard:
`((1-alpha) * old_std**2 + alpha * (x - new_mean)**2) ** 0.5 if x else old_std`. -/
def stdSqUpd (oldSq : ℚ) (v : Option ℚ) (newMean : ℚ) : ℚ :=
  match v with
  | some x => if x ≠ 0 then (1 - EMA_ALPHA) * oldSq + EMA_ALPHA * (x - newMean) ^ 2 else oldSq
  | none => oldSq

/-- The user_baselines accumulator maintained by auto_update_baseline
(std columns as their squares, see above). -/
structure BaselineAcc where
  avg_heart_rate : ℚ
  avg_hrv : ℚ
  avg_spo2 : ℚ
  avg_temp : ℚ
  avg_activity : ℚ
  stdSq_heart_rate : ℚ
  stdSq_hrv : ℚ
  stdSq_spo2 : ℚ
  stdSq_temp : ℚ
  data_points : Int
deriving DecidableEq

/-- BaselinesRepository.auto_update_baseline, row-exists branch. -/
def autoUpdateExisting (b : BaselineAcc) (v : VEvent) : BaselineAcc :=
  let new_hr := emaUpd b.avg_heart_rate v.heart_rate
  let new_hrv := emaUpd b.avg_hrv v.hrv_ms
  let new_spo2 := emaUpd b.avg_spo2 v.spo2_percent
  let new_temp := emaUpd b.avg_temp v.skin_temp_c
  let new_activity := emaUpd b.avg_activity v.activity_level
  ⟨new_hr, new_hrv, new_spo2, new_temp, new_activity,
   stdSqUpd b.stdSq_heart_rate v.heart_rate new_hr,
   stdSqUpd b.stdSq_hrv v.hrv_ms new_hrv,
   stdSqUpd b.stdSq_spo2 v.spo2_percent new_spo2,
   stdSqUpd b.stdSq_temp v.skin_temp_c new_temp,
   b.data_points + 1⟩

/-- Python `x or d`: the value when truthy, the default otherwise. -/
def orDefault (v : Option ℚ) (d : ℚ) : ℚ :=
  match v with
  | some x => if x ≠ 0 then x else d
  | none => d

/-- BaselinesRepository.auto_update_baseline, no-row branch: initial insert
with defaults 72/50/98/36.5/20 and stds (5, 5, 1, 0.2), stored squared
here as (25, 25, 1, 1/25). -/
def autoUpdateInsert (v : VEvent) : BaselineAcc :=
  ⟨orDefault v.heart_rate 72, orDefault v.hrv_ms 50, orDefault v.spo2_percent 98,
   orDefault v.skin_temp_c (365/10), orDefault v.activity_level 20,
   25, 25, 1, 1/25, 1⟩

/-- BaselinesRepository.auto_update_baseline on the stored row (if any). -/
def autoUpdateBaseline : Option BaselineAcc → VEvent → BaselineAcc
  | some b, v => autoUpdateExisting b v
  | none, v => autoUpdateInsert v

/-- The in-memory per-user baseline of InMemoryVitalsStore (means only). -/
structure MemBaseline where
  avg_heart_rate : ℚ
  avg_hrv : ℚ
  avg_spo2 : ℚ
  avg_temp : ℚ
  avg_activity : ℚ
  data_points : Int
deriving DecidableEq

/-- InMemoryVitalsStore._update_baseline, user-known branch: EMA per metric
under the same truthiness guard, then increment data_points. -/
def memUpdateExisting (b : MemBaseline) (v : VEvent) : MemBaseline :=
  ⟨emaUpd b.avg_heart_rate v.heart_rate,
   emaUpd b.avg_hrv v.hrv_ms,
   emaUpd b.avg_spo2 v.spo2_percent,
   emaUpd b.avg_temp v.skin_temp_c,
   emaUpd b.avg_activity v.activity_level,
   b.data_points + 1⟩

/-- InMemoryVitalsStore._update_baseline, first event of a user:
`vital_data.get(f, default)` — the default applies only when the key is
absent, so a present zero is stored as zero. -/
def memInitBaseline (v : VEvent) : MemBaseline :=
  ⟨(v.heart_rate).getD 72, (v.hrv_ms).getD 50, (v.spo2_percent).getD 98,
   (v.skin_temp_c).getD (365/10), (v.activity_level).getD 20, 1⟩

/-- InMemoryVitalsStore._update_baseline. -/
def memUpdateBaseline : Option MemBaseline → VEvent → MemBaseline
  | some b, v => memUpdateExisting b v
  | none, v => memInitBaseline v

/-- The stored user_baselines row as read by get_deviation_alert
(std columns as stored). -/
structure BaselineRow where
  avg_heart_rate : ℚ
  avg_hrv : ℚ
  avg_spo2 : ℚ
  avg_temp : ℚ
  std_heart_rate : ℚ
  std_hrv : ℚ
  std_spo2 : ℚ
  std_temp : ℚ
  data_points : Int
deriving DecidableEq

/-- Rounding to the nearest integer, as Python round(x).  Python uses
round-half-to-even on floats; the two conventions agree except exactly at
half-way points, which no claim here exercises. -/
def round0 (x : ℚ) : ℚ := (round x : ℤ)

/-- Rounding to one decimal, as Python round(x, 1). -/
def round1 (x : ℚ) : ℚ := ((round (10 * x) : ℤ) : ℚ) / 10

/-- Rounding to two decimals, as Python round(x, 2). -/
def round2 (x : ℚ) : ℚ := ((round (100 * x) : ℤ) : ℚ) / 100

/-- One entry of the deviations list built by get_deviation_alert.
`severityHigh` is the "high" vs "moderate" severity tag; message strings
are formatting and omitted. -/
structure Deviation where
  metric : String
  current : ℚ
  baseline : ℚ
  percent_change : ℚ
  severityHigh : Bool
deriving DecidableEq

/-- The effective heart-rate std: `baseline.get("std_heart_rate") or 8`
(a stored zero is falsy and falls back to 8). -/
def hrStdEff (b : BaselineRow) : ℚ := if b.std_heart_rate = 0 then 8 else b.std_heart_rate

/-- Percent change of the current heart rate against the personal mean. -/
def hrPct (b : BaselineRow) (x : ℚ) : ℚ := (x - b.avg_heart_rate) / b.avg_heart_rate * 100

/-- The heart-rate z-score as computed by get_deviation_alert. -/
def hrZ (b : BaselineRow) (x : ℚ) : ℚ :=
  if hrStdEff b > 0 then (x - b.avg_heart_rate) / hrStdEff b else 0

/-- The heart-rate block of get_deviation_alert (guarded by truthiness of
both the current reading and the stored mean). -/
def hrCheck (b : BaselineRow) (hr : Option ℚ) : Option Deviation :=
  match hr with
  | some x =>
    if x ≠ 0 ∧ b.avg_heart_rate ≠ 0 then
      if |hrPct b x| > 15 ∨ |hrZ b x| > 2 then
        some ⟨"heart_rate", x, round0 b.avg_heart_rate, round1 (hrPct b x), |hrPct b x| > 25⟩
      else none
    else none
  | none => none

/-- The HRV block: only a downside deviation is raised
(`pct_change < -20 or z_score < -2`); std falls back to 10. -/
def hrvCheck (b : BaselineRow) (hrv : Option ℚ) : Option Deviation :=
  match hrv with
  | some x =>
    if x ≠ 0 ∧ b.avg_hrv ≠ 0 then
      let stdEff := if b.std_hrv = 0 then 10 else b.std_hrv
      let pct := (x - b.avg_hrv) / b.avg_hrv * 100
      let z := if stdEff > 0 then (x - b.avg_hrv) / stdEff else 0
      if pct < -20 ∨ z < -2 then
        some ⟨"hrv_ms", x, round0 b.avg_hrv, round1 pct, pct < -30⟩
      else none
    else none
  | none => none

/-- The SpO2 block: absolute floor 95 or a 2-point drop below the personal
mean. -/
def spo2Check (b : BaselineRow) (spo2 : Option ℚ) : Option Deviation :=
  match spo2 with
  | some x =>
    if x ≠ 0 ∧ b.avg_spo2 ≠ 0 then
      if x < 95 ∨ x < b.avg_spo2 - 2 then
        some ⟨"spo2_percent", x, round0 b.avg_spo2,
          round1 ((x - b.avg_spo2) / b.avg_spo2 * 100), x < 94⟩
      else none
    else none
  | none => none

/-- The temperature block: absolute difference above 0.5 °C (the fetched
std_temp default is never used by the condition). -/
def tempCheck (b : BaselineRow) (temp : Option ℚ) : Option Deviation :=
  match temp with
  | some x =>
    if x ≠ 0 ∧ b.avg_temp ≠ 0 then
      if |x - b.avg_temp| > 1/2 then
        some ⟨"skin_temp_c", round1 x, round1 b.avg_temp,
          round1 ((x - b.avg_temp) / b.avg_temp * 100), |x - b.avg_temp| > 1⟩
      else none
    else none
  | none => none

/-- All four metric blocks of get_deviation_alert, in program order. -/
def deviationsOf (b : BaselineRow) (v : VEvent) : List Deviation :=
  [hrCheck b v.heart_rate, hrvCheck b v.hrv_ms,
   spo2Check b v.spo2_percent, tempCheck b v.skin_temp_c].filterMap id

/-- Severity order used by `deviations.sort(key=lambda x: 0 if high else 1)`. -/
def sevOrder (a b : Deviation) : Prop :=
  (if a.severityHigh then 0 else 1 : ℕ) ≤ (if b.severityHigh then 0 else 1)

instance : DecidableRel sevOrder :=
  fun a b =>
    inferInstanceAs
      (Decidable ((if a.severityHigh then 0 else 1 : ℕ) ≤ (if b.severityHigh then 0 else 1)))

/-- The structured result of get_deviation_alert. -/
structure DeviationResult where
  deviations : List Deviation
  baseline_data_points : Int
  primary : Option Deviation
deriving DecidableEq

/-- BaselinesRepository.get_deviation_alert: gated on a stored baseline with
data_points ≥ 10; `None` when no block fires. -/
def getDeviationAlert (row : Option BaselineRow) (v : VEvent) : Option DeviationResult :=
  match row with
  | none => none
  | some b =>
    if b.data_points < 10 then none
    else
      let devs := List.insertionSort sevOrder (deviationsOf b v)
      if devs.length = 0 then none
      else some ⟨devs, b.data_points, devs.head?⟩

/-! ### MATCH_RECOGNIZE anomaly detectors (src/stream-processor/flink_job.py)

All three queries share the shape
`PATTERN (A{min,}? B) ONE ROW PER MATCH AFTER MATCH SKIP PAST LAST ROW`
over a per-user stream ordered by event time.  The reluctant quantifier
tries the terminator B as soon as `min` rows matched A, extends the run by
one A-row otherwise, and fails if a row matches neither.  Matching is
attempted at every row from left to right, and after a match scanning
resumes past the matched rows. -/

/-- One row of the `biometrics_raw` source table (per-user stream; the
PARTITION BY user_id clause is modelled by working per partition). -/
structure RawEvent where
  event_id : String
  ts : Int
  heart_rate : Int
  hrv_ms : Int
  activity_level : Int
  steps_per_minute : Int
  skin_temp_c : ℚ
  spo2_percent : Int
  respiratory_rate : Int
deriving DecidableEq

/-- Try to match `A{need,}? B` at the head of the list.  Returns the A-run
and the remainder after the B row.  With `need = 0` the reluctant
quantifier checks B first, extends with an A-row otherwise. -/
def matchAt (A B : RawEvent → Bool) : Nat → List RawEvent → Option (List RawEvent × List RawEvent)
  | _, [] => none
  | 0, e :: rest =>
    if B e then some ([], rest)
    else if A e then
      match matchAt A B 0 rest with
      | some (run, after) => some (e :: run, after)
      | none => none
    else none
  | n + 1, e :: rest =>
    if A e then
      match matchAt A B n rest with
      | some (run, after) => some (e :: run, after)
      | none => none
    else none

/-- The left-to-right scan with skip-past-last-row, fuelled by the input
length (each match consumes at least the terminator row, so the input
length bounds the number of steps). -/
def matchRunsFuel (A B : RawEvent → Bool) (minRun : Nat) : Nat → List RawEvent → List (List RawEvent)
  | 0, _ => []
  | _, [] => []
  | fuel + 1, e :: rest =>
    match matchAt A B minRun (e :: rest) with
    | some (run, after) => run :: matchRunsFuel A B minRun fuel after
    | none => matchRunsFuel A B minRun fuel rest

/-- The matched A-runs of a stream, in order. -/
def matchRuns (A B : RawEvent → Bool) (minRun : Nat) (l : List RawEvent) : List (List RawEvent) :=
  matchRunsFuel A B minRun l.length l

/-- Tachycardia-at-rest row predicate A. -/
def tachyA (e : RawEvent) : Bool :=
  decide (100 < e.heart_rate) && decide (e.activity_level < 10) && decide (e.steps_per_minute < 5)

/-- Tachycardia terminator B (the pointwise negation of A). -/
def tachyB (e : RawEvent) : Bool :=
  decide (e.heart_rate ≤ 100) || decide (10 ≤ e.activity_level) || decide (5 ≤ e.steps_per_minute)

/-- Hypoxia row predicate A. -/
def hypoxA (e : RawEvent) : Bool := decide (e.spo2_percent < 94)

/-- Hypoxia terminator B. -/
def hypoxB (e : RawEvent) : Bool := decide (94 ≤ e.spo2_percent)

/-- Fever row predicate A. -/
def feverA (e : RawEvent) : Bool := decide ((75 : ℚ)/2 < e.skin_temp_c)

/-- Fever terminator B. -/
def feverB (e : RawEvent) : Bool := decide (e.skin_temp_c ≤ (75 : ℚ)/2)

/-- Alert severities emitted by the detection queries. -/
inductive Severity where
  | CRITICAL
  | HIGH
  | MEDIUM
deriving DecidableEq

/-- An alert row as written to the `biometrics_alerts` sink (alert_id is a
fresh UUID and the description a format string; both omitted). -/
structure FlinkAlert where
  severity : Severity
  start_time : Int
  end_time : Int
  aggregate : ℚ
  event_count : Nat
deriving DecidableEq

/-- Average of a value list (runs are non-empty wherever this is used). -/
def listAvg (l : List ℚ) : ℚ := l.sum / (l.length : ℚ)

/-- Tachycardia severity: avg_hr > 130 CRITICAL, > 115 HIGH, else MEDIUM. -/
def tachySeverity (avg : ℚ) : Severity :=
  if avg > 130 then .CRITICAL else if avg > 115 then .HIGH else .MEDIUM

/-- The tachycardia MEASURES clause on a matched run: FIRST(A.ts),
LAST(A.ts), AVG(heart_rate), COUNT(A.event_id). -/
def tachyAlertOfRun (run : List RawEvent) : FlinkAlert :=
  let avg := listAvg (run.map (fun e => (e.heart_rate : ℚ)))
  ⟨tachySeverity avg, ((run.map (fun e => e.ts)).head?).getD 0,
   ((run.map (fun e => e.ts)).getLast?).getD 0, avg, run.length⟩

/-- The TACHYCARDIA_AT_REST query on one user's ordered stream. -/
def tachycardiaAlerts (stream : List RawEvent) : List FlinkAlert :=
  (matchRuns tachyA tachyB 5 stream).map tachyAlertOfRun

/-- Hypoxia severity: avg_spo2 < 90 CRITICAL, < 92 HIGH, else MEDIUM. -/
def hypoxSeverity (avg : ℚ) : Severity :=
  if avg < 90 then .CRITICAL else if avg < 92 then .HIGH else .MEDIUM

/-- The hypoxia MEASURES clause on a matched run. -/
def hypoxAlertOfRun (run : List RawEvent) : FlinkAlert :=
  let avg := listAvg (run.map (fun e => (e.spo2_percent : ℚ)))
  ⟨hypoxSeverity avg, ((run.map (fun e => e.ts)).head?).getD 0,
   ((run.map (fun e => e.ts)).getLast?).getD 0, avg, run.length⟩

/-- The LOW_SPO2_HYPOXIA query on one user's ordered stream. -/
def hypoxiaAlerts (stream : List RawEvent) : List FlinkAlert :=
  (matchRuns hypoxA hypoxB 3 stream).map hypoxAlertOfRun

/-- Fever severity: avg_temp > 38.5 CRITICAL, > 38.0 HIGH, else MEDIUM. -/
def feverSeverity (avg : ℚ) : Severity :=
  if avg > (77 : ℚ)/2 then .CRITICAL else if avg > 38 then .HIGH else .MEDIUM

/-- The fever MEASURES clause on a matched run. -/
def feverAlertOfRun (run : List RawEvent) : FlinkAlert :=
  let avg := listAvg (run.map (fun e => e.skin_temp_c))
  ⟨feverSeverity avg, ((run.map (fun e => e.ts)).head?).getD 0,
   ((run.map (fun e => e.ts)).getLast?).getD 0, avg, run.length⟩

/-- The ELEVATED_TEMPERATURE query on one user's ordered stream. -/
def feverAlerts (stream : List RawEvent) : List FlinkAlert :=
  (matchRuns feverA feverB 3 stream).map feverAlertOfRun

/-! ### Predictions (PredictionEngine, src/api/predictions.py)

Sample timestamps are rational seconds; the code converts them to hours
from the first sample.  All regression arithmetic is exact over ℚ. -/

/-- A (timestamp, value) sample for one metric. -/
structure PSample where
  ts : ℚ
  value : ℚ
deriving DecidableEq

/-- Ascending-timestamp order used by `data_points.sort(key=lambda x: x[0])`. -/
def tsAsc (a b : PSample) : Prop := a.ts ≤ b.ts

instance : DecidableRel tsAsc :=
  fun a b => inferInstanceAs (Decidable (a.ts ≤ b.ts))

/-- PredictionEngine.linear_regression: (slope, intercept, r_squared).
The Python body also computes sum_y2, which it never uses. -/
def linearRegression (xs ys : List ℚ) : ℚ × ℚ × ℚ :=
  let n : ℚ := (xs.length : ℚ)
  if xs.length < 2 then (0, 0, 0)
  else
    let sx := xs.sum
    let sy := ys.sum
    let sxy := ((xs.zip ys).map (fun p => p.1 * p.2)).sum
    let sx2 := (xs.map (fun x => x * x)).sum
    let denom := n * sx2 - sx * sx
    if denom = 0 then (0, sy / n, 0)
    else
      let slope := (n * sxy - sx * sy) / denom
      let intercept := (sy - slope * sx) / n
      let ymean := sy / n
      let ss_tot := (ys.map (fun y => (y - ymean) ^ 2)).sum
      let ss_res := ((xs.zip ys).map (fun p => (p.2 - (slope * p.1 + intercept)) ^ 2)).sum
      let r2 := if ss_tot > 0 then 1 - ss_res / ss_tot else 0
      (slope, intercept, max 0 r2)

/-- `base_time = timestamps[0]` (samples are non-empty whenever this is read). -/
def baseTs (samples : List PSample) : ℚ := ((samples.head?).map (fun s => s.ts)).getD 0

/-- `timestamps[-1]`. -/
def lastTs (samples : List PSample) : ℚ := (((samples.map (fun s => s.ts)).getLast?)).getD 0

/-- The regression x-values: hours from the first sample. -/
def regXs (samples : List PSample) : List ℚ :=
  samples.map (fun s => (s.ts - baseTs samples) / 3600)

/-- `data_span_hours` of predict_metric_value. -/
def spanHours (samples : List PSample) : ℚ := (lastTs samples - baseTs samples) / 3600

/-- `recency_factor = min(1.0, data_span_hours / 2)`. -/
def recencyFactor (samples : List PSample) : ℚ := min 1 (spanHours samples / 2)

/-- The regression of the sample series, x in hours from the first sample. -/
def regrOf (samples : List PSample) : ℚ × ℚ × ℚ :=
  linearRegression (regXs samples) (samples.map (fun s => s.value))

/-- PredictionEngine.predict_metric_value:
(predicted_value, slope_per_hour, confidence). -/
def predictMetricValue (samples : List PSample) (hoursAhead : ℚ) : ℚ × ℚ × ℚ :=
  if samples.length < 5 then (((samples.map (fun s => s.value)).getLast?).getD 0, 0, 0)
  else
    let r := regrOf samples
    let futureX := ((regXs samples).getLast?).getD 0 + hoursAhead
    (r.1 * futureX + r.2.1, r.1, r.2.2 * recencyFactor samples * (4/5))

/-- One entry of PredictionEngine.THRESHOLDS.  `isHigh` is the Python test
`"high" in threshold_name` on the literal keys, `isVery` the test
`"very" in threshold_name` (used for severity grading). -/
structure TEntry where
  value : ℚ
  isHigh : Bool
  isVery : Bool
deriving DecidableEq

/-- THRESHOLDS["heart_rate"] in dict insertion order. -/
def hrThresholds : List TEntry := [⟨100, true, false⟩, ⟨120, true, true⟩, ⟨50, false, false⟩]

/-- THRESHOLDS["hrv_ms"]. -/
def hrvThresholds : List TEntry := [⟨30, false, false⟩, ⟨20, false, true⟩]

/-- THRESHOLDS["spo2_percent"]. -/
def spo2Thresholds : List TEntry := [⟨95, false, false⟩, ⟨92, false, true⟩]

/-- THRESHOLDS["skin_temp_c"]. -/
def tempThresholds : List TEntry := [⟨(75 : ℚ)/2, true, false⟩, ⟨(77 : ℚ)/2, true, true⟩]

/-- `metric in cls.THRESHOLDS` with the per-metric entry list. -/
def thresholdsFor (metric : String) : Option (List TEntry) :=
  if metric = "heart_rate" then some hrThresholds
  else if metric = "hrv_ms" then some hrvThresholds
  else if metric = "spo2_percent" then some spo2Thresholds
  else if metric = "skin_temp_c" then some tempThresholds
  else none

/-- The field of a vitals event selected by `v.get(metric)`
(`is not None`, not truthiness: a present zero is a valid sample). -/
def fieldOf (metric : String) (v : VEvent) : Option ℚ :=
  if metric = "heart_rate" then v.heart_rate
  else if metric = "hrv_ms" then v.hrv_ms
  else if metric = "spo2_percent" then v.spo2_percent
  else if metric = "skin_temp_c" then v.skin_temp_c
  else none

/-- The metric's (timestamp, value) samples, time-sorted (stable, like the
Python list sort). -/
def predSamples (metric : String) (vitals : List VEvent) : List PSample :=
  List.insertionSort tsAsc
    (vitals.filterMap (fun v => (fieldOf metric v).map (fun x => PSample.mk (v.ts : ℚ) x)))

/-- A threshold-crossing prediction (predicted_time, label, message and
recommendation are formatting around the fields kept here). -/
structure Prediction where
  metric : String
  severityHigh : Bool
  hours_until : ℚ
  current_value : ℚ
  predicted_value : ℚ
  threshold : ℚ
  confidence : ℚ
deriving DecidableEq

/-- The threshold loop of predict_threshold_crossing: first matching
threshold wins; high thresholds need a rising trend below the threshold,
low thresholds a falling trend above it, in both cases a crossing within
max_hours. -/
def thresholdLoop (metric : String) (current slope conf maxHours : ℚ) :
    List TEntry → Option Prediction
  | [] => none
  | t :: rest =>
    if t.isHigh then
      if slope > 0 ∧ current < t.value then
        if 0 < (t.value - current) / (slope * 1) ∧ (t.value - current) / (slope * 1) ≤ maxHours then
          some ⟨metric, t.isVery, round1 ((t.value - current) / (slope * 1)),
            current, t.value, t.value, round2 conf⟩
        else thresholdLoop metric current slope conf maxHours rest
      else thresholdLoop metric current slope conf maxHours rest
    else
      if slope < 0 ∧ current > t.value then
        if 0 < (current - t.value) / |slope| ∧ (current - t.value) / |slope| ≤ maxHours then
          some ⟨metric, t.isVery, round1 ((current - t.value) / |slope|),
            current, t.value, t.value, round2 conf⟩
        else thresholdLoop metric current slope conf maxHours rest
      else thresholdLoop metric current slope conf maxHours rest

/-- PredictionEngine.predict_threshold_crossing. -/
def predictThresholdCrossing (metric : String) (vitals : List VEvent) (maxHours : ℚ) :
    Option Prediction :=
  match thresholdsFor metric with
  | none => none
  | some thrs =>
    if vitals.length = 0 then none
    else
      let samples := predSamples metric vitals
      if samples.length < 5 then none
      else
        let current := ((samples.map (fun s => s.value)).getLast?).getD 0
        let r := predictMetricValue samples 1
        if r.2.2 < 3/10 then none
        else thresholdLoop metric current r.2.1 r.2.2 maxHours thrs

/-- The acceptance score of the spec: R² · recency_factor for the series
the engine actually regresses. -/
def regressionScore (metric : String) (vitals : List VEvent) : ℚ :=
  (regrOf (predSamples metric vitals)).2.2 * recencyFactor (predSamples metric vitals)

/-! ### Concrete instances used to evaluate the theorems on closed inputs -/

/-- Two-source ingest sequence: apple reports HR 73 at t = 1000 ms, google
HR 75 at t = 5000 ms. -/
def c1Events : List SEvent :=
  [⟨"apple", 1000, [("heart_rate", 73)]⟩, ⟨"google", 5000, [("heart_rate", 75)]⟩]

/-- The heart-rate source map reached by ingesting `c1Events`. -/
def c1Srcs : SourceMap := [("apple", ⟨73, 1000⟩), ("google", ⟨75, 5000⟩)]

/-- Five consecutive per-second tachycardia events (HR 120, activity 5,
steps 0), as in scenario S1. -/
def c4Run : List RawEvent :=
  [⟨"e1", 0, 120, 50, 5, 0, 36, 98, 14⟩,
   ⟨"e2", 1000, 120, 50, 5, 0, 36, 98, 14⟩,
   ⟨"e3", 2000, 120, 50, 5, 0, 36, 98, 14⟩,
   ⟨"e4", 3000, 120, 50, 5, 0, 36, 98, 14⟩,
   ⟨"e5", 4000, 120, 50, 5, 0, 36, 98, 14⟩]

/-- The terminating event: HR back to 80, same rest profile. -/
def c4Term : RawEvent := ⟨"e6", 5000, 80, 50, 5, 0, 36, 98, 14⟩

/-- The S1 input stream: five tachycardia events then the terminator. -/
def c4Stream : List RawEvent := c4Run ++ [c4Term]

/-- A three-event hypoxia run (SpO2 90). -/
def c3HypoxRun : List RawEvent :=
  [⟨"h1", 0, 70, 50, 5, 0, 36, 90, 14⟩,
   ⟨"h2", 1000, 70, 50, 5, 0, 36, 90, 14⟩,
   ⟨"h3", 2000, 70, 50, 5, 0, 36, 90, 14⟩]

/-- A hypoxia terminator (SpO2 recovered to 96). -/
def c3HypoxTerm : RawEvent := ⟨"h4", 3000, 70, 50, 5, 0, 36, 96, 14⟩

/-- A three-event fever run (38 °C). -/
def c3FeverRun : List RawEvent :=
  [⟨"f1", 0, 70, 50, 5, 0, 38, 98, 14⟩,
   ⟨"f2", 1000, 70, 50, 5, 0, 38, 98, 14⟩,
   ⟨"f3", 2000, 70, 50, 5, 0, 38, 98, 14⟩]

/-- A fever terminator (37 °C). -/
def c3FeverTerm : RawEvent := ⟨"f4", 3000, 70, 50, 5, 0, 37, 98, 14⟩

/-- A vitals event helper: all metric fields absent. -/
def emptyV : VEvent := ⟨"", "user_001", 0, none, none, none, none, none⟩

/-- A stored baseline accumulator with the schema defaults and mean
activity 20 after 20 data points. -/
def c5Acc : BaselineAcc := ⟨72, 50, 98, 365/10, 20, 25, 25, 1, 1/25, 20⟩

/-- An incoming event whose activity reading is exactly zero. -/
def c5ZeroActivity : VEvent := { emptyV with event_id := "z1", activity_level := some 0 }

/-- A stored baseline row with 20 data points, mean HR 72, std HR 8. -/
def c5Row : BaselineRow := ⟨72, 50, 98, 365/10, 8, 10, 1, 3/10, 20⟩

/-- An event with a (bogus but concrete) zero heart-rate reading:
100 % below the personal mean. -/
def c5ZeroHr : VEvent := { emptyV with event_id := "z2", heart_rate := some 0 }

/-- An event with HR 95: 31.9 % above the 72 bpm personal mean. -/
def c5HighHr : VEvent := { emptyV with event_id := "z3", heart_rate := some 95 }

/-- In-memory baseline used to evaluate the frame condition. -/
def c10Mem : MemBaseline := ⟨72, 50, 98, 365/10, 20, 20⟩

/-- Ring with an in-window event stored behind an out-of-window one:
oldest-first, e2 is stale although e1 (older position) is in the window. -/
def c9E1 : VEvent := { emptyV with event_id := "r1", ts := 100 }

/-- The stale middle event. -/
def c9E2 : VEvent := { emptyV with event_id := "r2", ts := 0 }

/-- The fresh newest event. -/
def c9E3 : VEvent := { emptyV with event_id := "r3", ts := 100 }

/-- The three-event ring. -/
def c9Ring : List VEvent := [c9E1, c9E2, c9E3]

/-- A one-event ring for the routing checks. -/
def c2Ring : List VEvent := [{ emptyV with event_id := "m1", ts := 90, heart_rate := some 70 }]

/-- A one-row persistent table for the routing checks. -/
def c2Rows : List VEvent := [{ emptyV with event_id := "s1", ts := 10, heart_rate := some 80 }]

/-- The stored row with too little history (5 data points). -/
def c5RowLow : BaselineRow := ⟨72, 50, 98, 365/10, 8, 10, 1, 3/10, 5⟩

/-- Five samples over two hours with HR rising linearly 80 → 96 (a perfect
fit, R² = 1, recency factor 1). -/
def c6Vitals : List VEvent :=
  [{ emptyV with event_id := "p1", ts := 0, heart_rate := some 80 },
   { emptyV with event_id := "p2", ts := 1800, heart_rate := some 84 },
   { emptyV with event_id := "p3", ts := 3600, heart_rate := some 88 },
   { emptyV with event_id := "p4", ts := 5400, heart_rate := some 92 },
   { emptyV with event_id := "p5", ts := 7200, heart_rate := some 96 }]

/-- The prediction emitted on `c6Vitals`: the 100 bpm threshold is half an
hour away at slope 8/h, confidence 0.8. -/
def c6Pred : Prediction := ⟨"heart_rate", false, 1/2, 96, 100, 100, 4/5⟩

/-! ## Theorems -/

/-! ### Helper lemmas: batch-layer upserts -/

theorem flushVitals_char (events : List VEvent) :
    ∀ tbl : List VEvent,
      flushVitals tbl events
        = tbl.filter (fun r => !(events.any (fun e => e.event_id = r.event_id)))
            ++ flushVitals [] events := by
  induction events with
  | nil =>
    intro tbl
    simp [flushVitals]
  | cons e es ih =>
    intro tbl
    have h1 : flushVitals tbl (e :: es) = flushVitals (upsertVital tbl e) es := rfl
    have h2 : flushVitals [] (e :: es) = flushVitals (upsertVital [] e) es := rfl
    rw [h1, ih (upsertVital tbl e), h2, ih (upsertVital [] e)]
    have h3 : upsertVital [] e = [e] := rfl
    rw [h3]
    show (upsertVital tbl e).filter _ ++ _ = _
    rw [upsertVital, List.filter_append, List.filter_filter, List.append_assoc]
    congr 1
    apply List.filter_congr
    intro r _
    by_cases hid : e.event_id = r.event_id
    · simp [hid]
    · have hid2 : ¬ (r.event_id = e.event_id) := fun hc => hid hc.symm
      simp [hid, hid2]

theorem mem_flushVitals (events : List VEvent) :
    ∀ (tbl : List VEvent) (r : VEvent), r ∈ flushVitals tbl events →
      r ∈ tbl ∨ ∃ e ∈ events, r = e := by
  induction events with
  | nil =>
    intro tbl r hr
    exact Or.inl hr
  | cons e es ih =>
    intro tbl r hr
    have h1 : flushVitals tbl (e :: es) = flushVitals (upsertVital tbl e) es := rfl
    rw [h1] at hr
    rcases ih (upsertVital tbl e) r hr with h | ⟨e2, he2, hre⟩
    · rw [upsertVital] at h
      rcases List.mem_append.mp h with h | h
      · exact Or.inl (List.mem_of_mem_filter h)
      · refine Or.inr ⟨e, List.mem_cons_self e es, ?_⟩
        simpa using h
    · exact Or.inr ⟨e2, List.mem_cons_of_mem e he2, hre⟩

theorem flushVitals_nil_ids (events : List VEvent) (r : VEvent)
    (hr : r ∈ flushVitals [] events) :
    events.any (fun e => e.event_id = r.event_id) = true := by
  rcases mem_flushVitals events [] r hr with h | ⟨e, he, hre⟩
  · simp at h
  · refine List.any_eq_true.mpr ⟨e, he, ?_⟩
    rw [hre]
    simp

/-- C8: persisting the same event set twice through the batch flusher's
`INSERT OR REPLACE` (keyed on the UNIQUE event_id column) leaves the vitals
table in the same state as persisting it once, and re-inserting an alert
with the same alert_id leaves the alerts table unchanged, in particular
adding no additional row. -/
theorem persistence_idempotent :
    (∀ (tbl events : List VEvent),
      flushVitals (flushVitals tbl events) events = flushVitals tbl events) ∧
    (∀ (tbl : List AlertRow) (a : AlertRow),
      insertAlert (insertAlert tbl a) a = insertAlert tbl a ∧
      (insertAlert (insertAlert tbl a) a).length = (insertAlert tbl a).length) := by
  constructor
  · intro tbl events
    rw [flushVitals_char events (flushVitals tbl events), flushVitals_char events tbl]
    rw [List.filter_append, List.filter_filter]
    have hmid : (flushVitals [] events).filter
        (fun r => !(events.any (fun e => e.event_id = r.event_id))) = [] := by
      rw [List.filter_eq_nil_iff]
      intro r hr
      simp [flushVitals_nil_ids events r hr]
    rw [hmid, List.append_nil]
    congr 1
    apply List.filter_congr
    intro r _
    simp
  · intro tbl a
    have hmain : insertAlert (insertAlert tbl a) a = insertAlert tbl a := by
      show (insertAlert tbl a).filter _ ++ [a] = _
      rw [insertAlert, List.filter_append, List.filter_filter]
      have h1 : ([a].filter (fun r => !(r.alert_id = a.alert_id : Bool))) = [] := by simp
      rw [h1, List.append_nil]
      congr 1
      apply List.filter_congr
      intro r _
      simp
    exact ⟨hmain, by rw [hmain]⟩

/-! ### Helper lemmas: ring scan -/

theorem ringScan_eq (c : Int) (u : String) :
    ∀ l : List VEvent,
      ringScan c u l
        = (l.takeWhile (fun v => !decide (v.ts < c))).filter (fun v => v.user_id = u) := by
  intro l
  induction l with
  | nil => simp [ringScan]
  | cons v rest ih =>
    by_cases hc : v.ts < c
    · simp [ringScan, hc, List.takeWhile_cons]
    · by_cases hu : v.user_id = u
      · simp [ringScan, hc, hu, List.takeWhile_cons, List.filter_cons, ih]
      · simp [ringScan, hc, hu, List.takeWhile_cons, List.filter_cons, ih]

/-- C9: the ring query walks the ring newest-to-oldest and stops at the
first out-of-window event; its result is exactly the requested user's
events inside the maximal all-in-window suffix of the ring (newest first).
Consequently an in-window event of the user stored behind an out-of-window
event is never returned. -/
theorem ring_get_recent_suffix (now : Int) (minutes : Int) (user : String) (ring : List VEvent) :
    ringGetRecent now minutes user ring
      = ((inWindowSuffix (now - minutes * 60) ring).filter
          (fun v => v.user_id = user)).reverse ∧
    ∀ v ∈ ring, now - minutes * 60 ≤ v.ts → v.user_id = user →
      v ∉ inWindowSuffix (now - minutes * 60) ring →
      v ∉ ringGetRecent now minutes user ring := by
  have hmain : ringGetRecent now minutes user ring
      = ((inWindowSuffix (now - minutes * 60) ring).filter
          (fun v => v.user_id = user)).reverse := by
    rw [ringGetRecent, ringScan_eq, inWindowSuffix]
    rw [List.filter_reverse, List.reverse_reverse]
  refine ⟨hmain, ?_⟩
  intro v _ _ _ hnot hmem
  rw [hmain] at hmem
  rw [List.mem_reverse, List.mem_filter] at hmem
  exact hnot hmem.1

/-- Evaluation of the C9 theorem: in the concrete ring `c9Ring` the oldest
event is inside the window but hidden behind a stale event, and the query
omits it. -/
theorem ring_get_recent_suffix_check :
    c9E1 ∉ ringGetRecent 110 1 "user_001" c9Ring :=
  (ring_get_recent_suffix 110 1 "user_001" c9Ring).2 c9E1 (by decide) (by decide)
    (by decide) (by decide)

/-- C2: query routing of the lambda architecture.  Windows of at most
30 minutes are served from the in-memory ring whatever the persistent
store's state; longer windows are served from the SQLite rows only; the
latest reading always comes from the ring; stats route at one hour. -/
theorem query_routing :
    (∀ (now : Int) (minutes : Int) (user : String) (ring : List VEvent)
        (sqlRes : Except DbError (List VEvent)), minutes ≤ 30 →
      vitalsGetRecent now minutes user ring sqlRes = ringGetRecent now minutes user ring) ∧
    (∀ (now : Int) (minutes : Int) (user : String) (ring rows : List VEvent), 30 < minutes →
      vitalsGetRecent now minutes user ring (.ok rows) = sqlGetRecent now minutes user rows) ∧
    (∀ (user : String) (ring : List VEvent),
      vitalsGetLatest user ring = ringGetLatest user ring) ∧
    (∀ (now : Int) (hours : Int) (user : String) (ring : List VEvent)
        (sqlRes : Except DbError (List VEvent)), hours ≤ 1 →
      vitalsGetStats now hours user ring sqlRes = .ok (ringStats now (hours * 60) user ring)) ∧
    (∀ (now : Int) (hours : Int) (user : String) (ring rows : List VEvent), 1 < hours →
      vitalsGetStats now hours user ring (.ok rows) = .ok (sqlStats now hours user rows)) := by
  refine ⟨?_, ?_, ?_, ?_, ?_⟩
  · intro now minutes user ring sqlRes h
    simp [vitalsGetRecent, h]
  · intro now minutes user ring rows h
    rw [vitalsGetRecent, if_neg (by omega)]
  · intro user ring
    rfl
  · intro now hours user ring sqlRes h
    simp [vitalsGetStats, h]
  · intro now hours user ring rows h
    rw [vitalsGetStats, if_neg (by omega)]

/-- Evaluation of the C2 theorem on concrete stores. -/
theorem query_routing_check :
    (vitalsGetRecent 100 10 "user_001" c2Ring (.ok c2Rows)
      = ringGetRecent 100 10 "user_001" c2Ring) ∧
    (vitalsGetRecent 100 60 "user_001" c2Ring (.ok c2Rows)
      = sqlGetRecent 100 60 "user_001" c2Rows) ∧
    (vitalsGetLatest "user_001" c2Ring = ringGetLatest "user_001" c2Ring) ∧
    (vitalsGetStats 100 1 "user_001" c2Ring (.error .failure)
      = .ok (ringStats 100 60 "user_001" c2Ring)) ∧
    (vitalsGetStats 100 2 "user_001" c2Ring (.ok c2Rows)
      = .ok (sqlStats 100 2 "user_001" c2Rows)) :=
  ⟨query_routing.1 100 10 "user_001" c2Ring (.ok c2Rows) (by decide),
   query_routing.2.1 100 60 "user_001" c2Ring c2Rows (by decide),
   query_routing.2.2.1 "user_001" c2Ring,
   query_routing.2.2.2.1 100 1 "user_001" c2Ring (.error .failure) (by decide),
   query_routing.2.2.2.2 100 2 "user_001" c2Ring c2Rows (by decide)⟩

/-- C7 (code bug): on the historical path (hours > 1), a failing SQLite
query makes get_stats execute `return stats` with `stats` unbound; the
resulting NameError escapes instead of a structured result dictionary. -/
theorem get_stats_error_path_raises :
    vitalsGetStats 0 2 "user_001" [] (.error .failure) = .error .nameErrorStats := by
  rfl

/-! ### Helper lemmas: truthiness-guarded baseline updates -/

theorem emaUpd_zero (old : ℚ) : emaUpd old (some 0) = old := by
  simp [emaUpd]

theorem emaUpd_change (old : ℚ) (v : Option ℚ) (h : emaUpd old v ≠ old) :
    ∃ x, v = some x ∧ x ≠ 0 := by
  match v with
  | none => exact absurd rfl h
  | some x =>
    by_cases hx : x = 0
    · subst hx
      exact absurd (emaUpd_zero old) h
    · exact ⟨x, rfl, hx⟩

theorem stdSqUpd_zero (oldSq : ℚ) (m : ℚ) : stdSqUpd oldSq (some 0) m = oldSq := by
  simp [stdSqUpd]

theorem stdSqUpd_change (oldSq : ℚ) (v : Option ℚ) (m : ℚ)
    (h : stdSqUpd oldSq v m ≠ oldSq) : ∃ x, v = some x ∧ x ≠ 0 := by
  match v with
  | none => exact absurd rfl h
  | some x =>
    by_cases hx : x = 0
    · subst hx
      exact absurd (stdSqUpd_zero oldSq m) h
    · exact ⟨x, rfl, hx⟩

/-- C10: a metric value equal to zero is falsy in Python, so both baseline
maintainers skip the EMA update of that metric: its mean (and running std
in the persistent updater) is left exactly unchanged, and a baseline field
only ever changes on a present, strictly non-zero reading. -/
theorem baseline_zero_reading_frame :
    (∀ (b : BaselineAcc) (v : VEvent), v.heart_rate = some 0 →
      (autoUpdateExisting b v).avg_heart_rate = b.avg_heart_rate ∧
      (autoUpdateExisting b v).stdSq_heart_rate = b.stdSq_heart_rate) ∧
    (∀ (b : BaselineAcc) (v : VEvent), v.hrv_ms = some 0 →
      (autoUpdateExisting b v).avg_hrv = b.avg_hrv ∧
      (autoUpdateExisting b v).stdSq_hrv = b.stdSq_hrv) ∧
    (∀ (b : BaselineAcc) (v : VEvent), v.spo2_percent = some 0 →
      (autoUpdateExisting b v).avg_spo2 = b.avg_spo2 ∧
      (autoUpdateExisting b v).stdSq_spo2 = b.stdSq_spo2) ∧
    (∀ (b : BaselineAcc) (v : VEvent), v.skin_temp_c = some 0 →
      (autoUpdateExisting b v).avg_temp = b.avg_temp ∧
      (autoUpdateExisting b v).stdSq_temp = b.stdSq_temp) ∧
    (∀ (b : BaselineAcc) (v : VEvent), v.activity_level = some 0 →
      (autoUpdateExisting b v).avg_activity = b.avg_activity) ∧
    (∀ (b : MemBaseline) (v : VEvent), v.heart_rate = some 0 →
      (memUpdateExisting b v).avg_heart_rate = b.avg_heart_rate) ∧
    (∀ (b : MemBaseline) (v : VEvent), v.activity_level = some 0 →
      (memUpdateExisting b v).avg_activity = b.avg_activity) ∧
    (∀ (b : BaselineAcc) (v : VEvent),
      (autoUpdateExisting b v).avg_heart_rate ≠ b.avg_heart_rate →
      ∃ x, v.heart_rate = some x ∧ x ≠ 0) ∧
    (∀ (b : BaselineAcc) (v : VEvent),
      (autoUpdateExisting b v).stdSq_heart_rate ≠ b.stdSq_heart_rate →
      ∃ x, v.heart_rate = some x ∧ x ≠ 0) ∧
    (∀ (b : BaselineAcc) (v : VEvent),
      (autoUpdateExisting b v).avg_activity ≠ b.avg_activity →
      ∃ x, v.activity_level = some x ∧ x ≠ 0) ∧
    (∀ (b : MemBaseline) (v : VEvent),
      (memUpdateExisting b v).avg_activity ≠ b.avg_activity →
      ∃ x, v.activity_level = some x ∧ x ≠ 0) := by
  refine ⟨?_, ?_, ?_, ?_, ?_, ?_, ?_, ?_, ?_, ?_, ?_⟩
  · intro b v h
    constructor
    · show emaUpd b.avg_heart_rate v.heart_rate = b.avg_heart_rate
      rw [h, emaUpd_zero]
    · show stdSqUpd b.stdSq_heart_rate v.heart_rate _ = b.stdSq_heart_rate
      rw [h, stdSqUpd_zero]
  · intro b v h
    constructor
    · show emaUpd b.avg_hrv v.hrv_ms = b.avg_hrv
      rw [h, emaUpd_zero]
    · show stdSqUpd b.stdSq_hrv v.hrv_ms _ = b.stdSq_hrv
      rw [h, stdSqUpd_zero]
  · intro b v h
    constructor
    · show emaUpd b.avg_spo2 v.spo2_percent = b.avg_spo2
      rw [h, emaUpd_zero]
    · show stdSqUpd b.stdSq_spo2 v.spo2_percent _ = b.stdSq_spo2
      rw [h, stdSqUpd_zero]
  · intro b v h
    constructor
    · show emaUpd b.avg_temp v.skin_temp_c = b.avg_temp
      rw [h, emaUpd_zero]
    · show stdSqUpd b.stdSq_temp v.skin_temp_c _ = b.stdSq_temp
      rw [h, stdSqUpd_zero]
  · intro b v h
    show emaUpd b.avg_activity v.activity_level = b.avg_activity
    rw [h, emaUpd_zero]
  · intro b v h
    show emaUpd b.avg_heart_rate v.heart_rate = b.avg_heart_rate
    rw [h, emaUpd_zero]
  · intro b v h
    show emaUpd b.avg_activity v.activity_level = b.avg_activity
    rw [h, emaUpd_zero]
  · intro b v h
    exact emaUpd_change b.avg_heart_rate v.heart_rate h
  · intro b v h
    exact stdSqUpd_change b.stdSq_heart_rate v.heart_rate _ h
  · intro b v h
    exact emaUpd_change b.avg_activity v.activity_level h
  · intro b v h
    exact emaUpd_change b.avg_activity v.activity_level h

/-- Evaluation of the C10 theorem on concrete inputs: a zero activity
reading leaves the stored mean at 20, and a changed mean implies a
non-zero reading. -/
theorem baseline_zero_reading_frame_check :
    ((autoUpdateExisting c5Acc c5ZeroActivity).avg_activity = c5Acc.avg_activity ∧
     (memUpdateExisting c10Mem c5ZeroActivity).avg_activity = c10Mem.avg_activity) ∧
    ∃ x, c5HighHr.heart_rate = some x ∧ x ≠ 0 :=
  ⟨⟨baseline_zero_reading_frame.2.2.2.2.1 c5Acc c5ZeroActivity (by decide),
    baseline_zero_reading_frame.2.2.2.2.2.2.1 c10Mem c5ZeroActivity (by decide)⟩,
   baseline_zero_reading_frame.2.2.2.2.2.2.2.1 c5Acc c5HighHr (by
     norm_num [autoUpdateExisting, emaUpd, EMA_ALPHA, c5Acc, c5HighHr, emptyV])⟩

/-- C4 (scenario S1): five per-second events with HR 120 at rest followed
by one event with HR 80 produce exactly one TACHYCARDIA_AT_REST alert with
event_count 5, severity HIGH (the 120 bpm run average exceeds 115 but not
130), and start_time equal to the first event's timestamp (0). -/
theorem tachycardia_scenario_s1 :
    tachycardiaAlerts c4Stream = [⟨Severity.HIGH, 0, 4000, 120, 5⟩] ∧
    (c4Stream.head?.map (fun e => e.ts)) = some 0 ∧
    ((115 : ℚ) < 120 ∧ ¬ ((130 : ℚ) < 120)) := by
  have hruns : matchRuns tachyA tachyB 5 c4Stream = [c4Run] := by decide
  refine ⟨?_, by decide, by decide, by decide⟩
  rw [tachycardiaAlerts, hruns]
  norm_num [tachyAlertOfRun, listAvg, tachySeverity, c4Run]

/-! ### Helper lemmas: MATCH_RECOGNIZE run matching -/

theorem matchAt_nil (A B : RawEvent → Bool) (n : Nat) : matchAt A B n [] = none := by
  cases n <;> rfl

theorem matchAt_length (A B : RawEvent → Bool) :
    ∀ (l : List RawEvent) (n : Nat) (run after : List RawEvent),
      matchAt A B n l = some (run, after) →
      run.length + after.length + 1 = l.length := by
  intro l
  induction l with
  | nil =>
    intro n run after h
    rw [matchAt_nil] at h
    cases h
  | cons e rest ih =>
    intro n run after h
    cases n with
    | zero =>
      simp only [matchAt] at h
      split at h
      · simp only [Option.some.injEq, Prod.mk.injEq] at h
        obtain ⟨h1, h2⟩ := h
        subst h1
        subst h2
        simp
      · split at h
        · cases hm : matchAt A B 0 rest with
          | none =>
            rw [hm] at h
            cases h
          | some pr =>
            obtain ⟨run2, after2⟩ := pr
            rw [hm] at h
            simp only [Option.some.injEq, Prod.mk.injEq] at h
            obtain ⟨h1, h2⟩ := h
            subst h1
            subst h2
            have := ih 0 run2 after2 hm
            simp only [List.length_cons]
            omega
        · cases h
    | succ n =>
      simp only [matchAt] at h
      split at h
      · cases hm : matchAt A B n rest with
        | none =>
          rw [hm] at h
          cases h
        | some pr =>
          obtain ⟨run2, after2⟩ := pr
          rw [hm] at h
          simp only [Option.some.injEq, Prod.mk.injEq] at h
          obtain ⟨h1, h2⟩ := h
          subst h1
          subst h2
          have := ih n run2 after2 hm
          simp only [List.length_cons]
          omega
      · cases h

theorem matchAt_append_run (A B : RawEvent → Bool) (term : RawEvent)
    (hB : B term = true) (hAt : A term = false) :
    ∀ (run : List RawEvent) (suffix : List RawEvent) (n : Nat),
      (∀ e ∈ run, A e = true) → (∀ e ∈ run, B e = false) →
      matchAt A B n (run ++ term :: suffix)
        = if n ≤ run.length then some (run, suffix) else none := by
  intro run
  induction run with
  | nil =>
    intro suffix n _ _
    cases n with
    | zero =>
      simp [matchAt, hB]
    | succ n =>
      simp [matchAt, hAt]
  | cons e rs ih =>
    intro suffix n hA hBr
    have hAe : A e = true := hA e (List.mem_cons_self e rs)
    have hBe : B e = false := hBr e (List.mem_cons_self e rs)
    have hArs : ∀ e2 ∈ rs, A e2 = true := fun e2 h2 => hA e2 (List.mem_cons_of_mem e h2)
    have hBrs : ∀ e2 ∈ rs, B e2 = false := fun e2 h2 => hBr e2 (List.mem_cons_of_mem e h2)
    cases n with
    | zero =>
      have hrec := ih suffix 0 hArs hBrs
      rw [if_pos (Nat.zero_le _)] at hrec
      simp [matchAt, hBe, hAe, hrec]
    | succ n =>
      have hrec := ih suffix n hArs hBrs
      by_cases hn : n ≤ rs.length
      · rw [if_pos hn] at hrec
        simp [matchAt, hAe, hrec, Nat.succ_le_succ hn]
      · rw [if_neg hn] at hrec
        have hn2 : ¬ (n + 1 ≤ (e :: rs).length) := by
          simp only [List.length_cons]
          omega
        simp [matchAt, hAe, hrec, hn2, hn]

theorem matchRunsFuel_nil (A B : RawEvent → Bool) (m : Nat) :
    ∀ fuel, matchRunsFuel A B m fuel [] = [] := by
  intro fuel
  cases fuel <;> rfl

theorem matchRunsFuel_congr (A B : RawEvent → Bool) (m : Nat) :
    ∀ (k fuel : Nat) (l : List RawEvent), l.length ≤ k → l.length ≤ fuel →
      matchRunsFuel A B m fuel l = matchRunsFuel A B m l.length l := by
  intro k
  induction k with
  | zero =>
    intro fuel l hk _
    have : l = [] := List.length_eq_zero.mp (Nat.le_zero.mp hk)
    subst this
    rw [matchRunsFuel_nil, matchRunsFuel_nil]
  | succ k ih =>
    intro fuel l hk hfuel
    cases l with
    | nil => rw [matchRunsFuel_nil, matchRunsFuel_nil]
    | cons e rest =>
      cases fuel with
      | zero =>
        simp at hfuel
      | succ fuel =>
        show (match matchAt A B m (e :: rest) with
          | some (run, after) => run :: matchRunsFuel A B m fuel after
          | none => matchRunsFuel A B m fuel rest)
          = (match matchAt A B m (e :: rest) with
          | some (run, after) => run :: matchRunsFuel A B m rest.length after
          | none => matchRunsFuel A B m rest.length rest)
        cases hm : matchAt A B m (e :: rest) with
        | none =>
          have hr1 : rest.length ≤ k := by
            simp only [List.length_cons] at hk
            omega
          have hr2 : rest.length ≤ fuel := by
            simp only [List.length_cons] at hfuel
            omega
          simp only
          rw [ih fuel rest hr1 hr2, ih rest.length rest hr1 (Nat.le_refl _)]
        | some pr =>
          obtain ⟨run, after⟩ := pr
          have hlen := matchAt_length A B (e :: rest) m run after hm
          simp only [List.length_cons] at hlen hk hfuel
          have ha1 : after.length ≤ k := by omega
          have ha2 : after.length ≤ fuel := by omega
          have ha3 : after.length ≤ rest.length := by omega
          simp only
          rw [ih fuel after ha1 ha2, ih rest.length after ha1 ha3]

theorem matchRuns_append (A B : RawEvent → Bool) (m : Nat) (term : RawEvent)
    (hB : B term = true) (hAt : A term = false) :
    ∀ (run suffix : List RawEvent),
      (∀ e ∈ run, A e = true) → (∀ e ∈ run, B e = false) →
      matchRuns A B m (run ++ term :: suffix)
        = (if m ≤ run.length then [run] else []) ++ matchRuns A B m suffix := by
  intro run
  induction run with
  | nil =>
    intro suffix _ _
    have hm := matchAt_append_run A B term hB hAt [] suffix m (by simp) (by simp)
    simp only [List.nil_append] at hm
    cases m with
    | zero =>
      rw [if_pos (Nat.zero_le _)] at hm
      show matchRunsFuel A B 0 (term :: suffix).length (term :: suffix) = _
      simp only [List.length_cons]
      show (match matchAt A B 0 (term :: suffix) with
        | some (run, after) => run :: matchRunsFuel A B 0 suffix.length after
        | none => matchRunsFuel A B 0 suffix.length suffix) = _
      rw [hm]
      simp [matchRuns]
    | succ m =>
      rw [if_neg (by simp)] at hm
      show matchRunsFuel A B (m + 1) (term :: suffix).length (term :: suffix) = _
      simp only [List.length_cons]
      show (match matchAt A B (m + 1) (term :: suffix) with
        | some (run, after) => run :: matchRunsFuel A B (m + 1) suffix.length after
        | none => matchRunsFuel A B (m + 1) suffix.length suffix) = _
      rw [hm]
      simp [matchRuns]
  | cons e rs ih =>
    intro suffix hA hBr
    have hArs : ∀ e2 ∈ rs, A e2 = true := fun e2 h2 => hA e2 (List.mem_cons_of_mem e h2)
    have hBrs : ∀ e2 ∈ rs, B e2 = false := fun e2 h2 => hBr e2 (List.mem_cons_of_mem e h2)
    have hm := matchAt_append_run A B term hB hAt (e :: rs) suffix m hA hBr
    have hshape : (e :: rs) ++ term :: suffix = e :: (rs ++ term :: suffix) := rfl
    by_cases hle : m ≤ (e :: rs).length
    · rw [if_pos hle] at hm
      show matchRunsFuel A B m ((e :: rs) ++ term :: suffix).length ((e :: rs) ++ term :: suffix) = _
      rw [hshape]
      simp only [List.length_cons]
      show (match matchAt A B m (e :: (rs ++ term :: suffix)) with
        | some (run, after) => run :: matchRunsFuel A B m (rs ++ term :: suffix).length after
        | none => matchRunsFuel A B m (rs ++ term :: suffix).length (rs ++ term :: suffix)) = _
      rw [← hshape, hm]
      simp only
      have hsuf : suffix.length ≤ (rs ++ term :: suffix).length := by
        simp [List.length_append]
        omega
      rw [matchRunsFuel_congr A B m (rs ++ term :: suffix).length (rs ++ term :: suffix).length
        suffix hsuf hsuf]
      have hle2 : m ≤ rs.length + 1 := by
        simpa using hle
      rw [if_pos hle2]
      rfl
    · rw [if_neg hle] at hm
      show matchRunsFuel A B m ((e :: rs) ++ term :: suffix).length ((e :: rs) ++ term :: suffix) = _
      rw [hshape]
      simp only [List.length_cons]
      show (match matchAt A B m (e :: (rs ++ term :: suffix)) with
        | some (run, after) => run :: matchRunsFuel A B m (rs ++ term :: suffix).length after
        | none => matchRunsFuel A B m (rs ++ term :: suffix).length (rs ++ term :: suffix)) = _
      rw [← hshape, hm]
      simp only
      rw [matchRunsFuel_congr A B m (rs ++ term :: suffix).length (rs ++ term :: suffix).length
        (rs ++ term :: suffix) (Nat.le_refl _) (Nat.le_refl _)]
      have hfold : matchRunsFuel A B m (rs ++ term :: suffix).length (rs ++ term :: suffix)
          = matchRuns A B m (rs ++ term :: suffix) := rfl
      rw [hfold, ih suffix hArs hBrs]
      have hle3 : ¬ (m ≤ rs.length + 1) := by
        simpa using hle
      rw [if_neg hle3, if_neg (show ¬ m ≤ rs.length by omega)]

theorem tachyB_negates (e : RawEvent) : tachyB e = !tachyA e := by
  by_cases h1 : 100 < e.heart_rate <;>
    by_cases h2 : e.activity_level < 10 <;>
      by_cases h3 : e.steps_per_minute < 5 <;>
        simp [tachyA, tachyB, h1, h2, h3, not_lt] <;>
          omega

theorem hypoxB_negates (e : RawEvent) : hypoxB e = !hypoxA e := by
  by_cases h : e.spo2_percent < 94 <;> simp [hypoxA, hypoxB, h, not_lt] <;> omega

theorem feverB_negates (e : RawEvent) : feverB e = !feverA e := by
  by_cases h : (75 : ℚ)/2 < e.skin_temp_c <;> simp [feverA, feverB, h, not_lt] <;> linarith

/-- C3: for each configured detector (TACHYCARDIA_AT_REST with min_run 5,
LOW_SPO2_HYPOXIA and ELEVATED_TEMPERATURE with min_run 3), a run of k
consecutive events satisfying the pattern predicate A immediately followed
by an event satisfying the terminator B (the pointwise negation of A)
produces exactly one alert with event_count = k when k ≥ min_run and no
alert when k < min_run; the scan then resumes past the matched rows, so
matches never overlap whatever follows the terminator. -/
theorem detector_sustained_run :
    (∀ (run : List RawEvent) (term : RawEvent) (suffix : List RawEvent),
      (∀ e ∈ run, tachyA e = true) → tachyB term = true →
      tachycardiaAlerts (run ++ term :: suffix)
        = (if 5 ≤ run.length then [tachyAlertOfRun run] else []) ++ tachycardiaAlerts suffix ∧
      (tachyAlertOfRun run).event_count = run.length) ∧
    (∀ (run : List RawEvent) (term : RawEvent) (suffix : List RawEvent),
      (∀ e ∈ run, hypoxA e = true) → hypoxB term = true →
      hypoxiaAlerts (run ++ term :: suffix)
        = (if 3 ≤ run.length then [hypoxAlertOfRun run] else []) ++ hypoxiaAlerts suffix ∧
      (hypoxAlertOfRun run).event_count = run.length) ∧
    (∀ (run : List RawEvent) (term : RawEvent) (suffix : List RawEvent),
      (∀ e ∈ run, feverA e = true) → feverB term = true →
      feverAlerts (run ++ term :: suffix)
        = (if 3 ≤ run.length then [feverAlertOfRun run] else []) ++ feverAlerts suffix ∧
      (feverAlertOfRun run).event_count = run.length) := by
  refine ⟨?_, ?_, ?_⟩
  · intro run term suffix hA hB
    have hAt : tachyA term = false := by
      have h1 : (!tachyA term) = true := by
        rw [← tachyB_negates term]
        exact hB
      simpa using h1
    have hBr : ∀ e ∈ run, tachyB e = false := by
      intro e he
      rw [tachyB_negates e, hA e he]
      rfl
    refine ⟨?_, rfl⟩
    rw [tachycardiaAlerts, matchRuns_append tachyA tachyB 5 term hB hAt run suffix hA hBr,
      List.map_append]
    by_cases h5 : 5 ≤ run.length
    · rw [if_pos h5, if_pos h5]
      rfl
    · rw [if_neg h5, if_neg h5]
      rfl
  · intro run term suffix hA hB
    have hAt : hypoxA term = false := by
      have h1 : (!hypoxA term) = true := by
        rw [← hypoxB_negates term]
        exact hB
      simpa using h1
    have hBr : ∀ e ∈ run, hypoxB e = false := by
      intro e he
      rw [hypoxB_negates e, hA e he]
      rfl
    refine ⟨?_, rfl⟩
    rw [hypoxiaAlerts, matchRuns_append hypoxA hypoxB 3 term hB hAt run suffix hA hBr,
      List.map_append]
    by_cases h3 : 3 ≤ run.length
    · rw [if_pos h3, if_pos h3]
      rfl
    · rw [if_neg h3, if_neg h3]
      rfl
  · intro run term suffix hA hB
    have hAt : feverA term = false := by
      have h1 : (!feverA term) = true := by
        rw [← feverB_negates term]
        exact hB
      simpa using h1
    have hBr : ∀ e ∈ run, feverB e = false := by
      intro e he
      rw [feverB_negates e, hA e he]
      rfl
    refine ⟨?_, rfl⟩
    rw [feverAlerts, matchRuns_append feverA feverB 3 term hB hAt run suffix hA hBr,
      List.map_append]
    by_cases h3 : 3 ≤ run.length
    · rw [if_pos h3, if_pos h3]
      rfl
    · rw [if_neg h3, if_neg h3]
      rfl

/-- Evaluation of the C3 theorem on concrete runs for all three detectors. -/
theorem detector_sustained_run_check :
    (tachycardiaAlerts (c4Run ++ c4Term :: [])
      = (if 5 ≤ c4Run.length then [tachyAlertOfRun c4Run] else []) ++ tachycardiaAlerts [] ∧
     (tachyAlertOfRun c4Run).event_count = c4Run.length) ∧
    (hypoxiaAlerts (c3HypoxRun ++ c3HypoxTerm :: [])
      = (if 3 ≤ c3HypoxRun.length then [hypoxAlertOfRun c3HypoxRun] else [])
          ++ hypoxiaAlerts [] ∧
     (hypoxAlertOfRun c3HypoxRun).event_count = c3HypoxRun.length) ∧
    (feverAlerts (c3FeverRun ++ c3FeverTerm :: [])
      = (if 3 ≤ c3FeverRun.length then [feverAlertOfRun c3FeverRun] else [])
          ++ feverAlerts [] ∧
     (feverAlertOfRun c3FeverRun).event_count = c3FeverRun.length) :=
  ⟨detector_sustained_run.1 c4Run c4Term [] (by decide) (by decide),
   detector_sustained_run.2.1 c3HypoxRun c3HypoxTerm [] (by decide) (by decide),
   detector_sustained_run.2.2 c3FeverRun c3FeverTerm []
     (by norm_num [c3FeverRun, feverA]) (by norm_num [c3FeverTerm, feverB])⟩

/-! ### Helper lemmas: aggregator state -/

theorem addEvent_keys (st : AggState) (e : SEvent) :
    (addEvent st e).map Prod.fst = st.map Prod.fst := by
  rw [addEvent, List.map_map]
  apply List.map_congr_left
  intro p _
  cases hl : e.fields.lookup p.1 <;> simp [hl]

theorem ingestAll_keys (events : List SEvent) :
    (ingestAll events).map Prod.fst = AGGREGATABLE_METRICS := by
  rw [ingestAll]
  have hfold : ∀ (evs : List SEvent) (st : AggState),
      (evs.foldl addEvent st).map Prod.fst = st.map Prod.fst := by
    intro evs
    induction evs with
    | nil => intro st; rfl
    | cons e es ih =>
      intro st
      rw [List.foldl_cons, ih, addEvent_keys]
  rw [hfold]
  rw [initAggState, List.map_map]
  have hcomp : (Prod.fst ∘ fun m : String => (m, ([] : SourceMap))) = id := rfl
  rw [hcomp, List.map_id]

theorem assoc_unique {β : Type} :
    ∀ (l : List (String × β)), (l.map Prod.fst).Nodup →
      ∀ {k : String} {a b : β}, (k, a) ∈ l → (k, b) ∈ l → a = b := by
  intro l
  induction l with
  | nil =>
    intro _ k a b ha _
    simp at ha
  | cons p rest ih =>
    intro hnd k a b ha hb
    rw [List.map_cons, List.nodup_cons] at hnd
    obtain ⟨hp, hnd2⟩ := hnd
    rcases List.mem_cons.mp ha with ha1 | ha2 <;> rcases List.mem_cons.mp hb with hb1 | hb2
    · have hab : (k, a) = (k, b) := ha1.trans hb1.symm
      injection hab with _ h2
    · exfalso
      apply hp
      have hk : p.1 = k := by
        rw [← ha1]
      rw [hk]
      exact List.mem_map_of_mem Prod.fst hb2
    · exfalso
      apply hp
      have hk : p.1 = k := by
        rw [← hb1]
      rw [hk]
      exact List.mem_map_of_mem Prod.fst ha2
    · exact ih hnd2 ha2 hb2

theorem mem_freshReadings {now : Int} {srcs : SourceMap} {fr : FreshReading} :
    fr ∈ freshReadings now srcs ↔
      ∃ p ∈ srcs, now - p.2.ts < FRESHNESS_WINDOW_MS ∧
        fr = ⟨p.1, p.2.value, p.2.ts, now - p.2.ts⟩ := by
  rw [freshReadings, List.mem_filterMap]
  constructor
  · rintro ⟨p, hp, hf⟩
    by_cases hc : now - p.2.ts < FRESHNESS_WINDOW_MS
    · rw [if_pos hc] at hf
      refine ⟨p, hp, hc, ?_⟩
      injection hf with h
      exact h.symm
    · rw [if_neg hc] at hf
      cases hf
  · rintro ⟨p, hp, hc, rfl⟩
    exact ⟨p, hp, by rw [if_pos hc]⟩

theorem mem_sortFresh {l : List FreshReading} {fr : FreshReading} :
    fr ∈ sortFresh l ↔ fr ∈ l :=
  (List.perm_insertionSort newestFirst l).mem_iff

theorem sortFresh_sorted (l : List FreshReading) : (sortFresh l).Sorted newestFirst :=
  List.sorted_insertionSort newestFirst l

/-- C1: for every ingest sequence and wall-clock instant, the aggregated
state contains a metric only if some per-source reading is fresh (age at
most ten seconds); a reported metric carries the value of a freshest
reading and a freshness_ms of at most 10000; with no fresh reading the
metric is omitted entirely. -/
theorem speed_layer_freshness (events : List SEvent) (now : Int) (metric : String)
    (srcs : SourceMap) (hm : (metric, srcs) ∈ ingestAll events) :
    (∀ ma : MetricAgg, (metric, ma) ∈ recomputeAggregatedState now (ingestAll events) →
      ∃ sr ∈ srcs, now - sr.2.ts < FRESHNESS_WINDOW_MS ∧ ma.value = sr.2.value ∧
        ma.freshness_ms = now - sr.2.ts ∧ ma.freshness_ms ≤ 10000 ∧
        ∀ sr2 ∈ srcs, now - sr2.2.ts < FRESHNESS_WINDOW_MS → sr2.2.ts ≤ sr.2.ts) ∧
    ((∀ sr ∈ srcs, ¬ (now - sr.2.ts < FRESHNESS_WINDOW_MS)) →
      ∀ ma : MetricAgg, (metric, ma) ∉ recomputeAggregatedState now (ingestAll events)) := by
  have hkeys : ((ingestAll events).map Prod.fst).Nodup := by
    rw [ingestAll_keys]
    decide
  constructor
  · intro ma hmem
    rw [recomputeAggregatedState, List.mem_filterMap] at hmem
    obtain ⟨p, hp, hf⟩ := hmem
    rw [Option.map_eq_some'] at hf
    obtain ⟨a, ha, hpa⟩ := hf
    have hp1 : p.1 = metric := congrArg Prod.fst hpa
    have ha2 : ma = a := (congrArg Prod.snd hpa).symm
    subst ha2
    have hpsrcs : p.2 = srcs := by
      have hpmem : (metric, p.2) ∈ ingestAll events := by
        rw [← hp1]
        exact hp
      exact assoc_unique (ingestAll events) hkeys hpmem hm
    rw [hpsrcs] at ha
    cases hsf : sortFresh (freshReadings now srcs) with
    | nil =>
      rw [hsf] at ha
      cases ha
    | cons best rest =>
      rw [hsf] at ha
      have hma : ma = ⟨best.value, (best :: rest).map (fun r => r.source),
          best.age_ms, (best :: rest).length⟩ := by
        rw [aggOfFresh] at ha
        injection ha with h
        exact h.symm
      have hbest : best ∈ freshReadings now srcs := by
        rw [← mem_sortFresh, hsf]
        exact List.mem_cons_self best rest
      obtain ⟨sr, hsr, hcond, hfr⟩ := mem_freshReadings.mp hbest
      refine ⟨sr, hsr, hcond, ?_, ?_, ?_, ?_⟩
      · rw [hma, hfr]
      · rw [hma, hfr]
      · rw [hma, hfr]
        rw [FRESHNESS_WINDOW_MS] at hcond
        show now - sr.2.ts ≤ 10000
        omega
      · intro sr2 hsr2 hcond2
        have hbts : best.ts = sr.2.ts := by
          rw [hfr]
        have hfr2 : (⟨sr2.1, sr2.2.value, sr2.2.ts, now - sr2.2.ts⟩ : FreshReading)
            ∈ freshReadings now srcs :=
          mem_freshReadings.mpr ⟨sr2, hsr2, hcond2, rfl⟩
        have hmem2 : (⟨sr2.1, sr2.2.value, sr2.2.ts, now - sr2.2.ts⟩ : FreshReading)
            ∈ best :: rest := by
          rw [← hsf]
          exact mem_sortFresh.mpr hfr2
        rcases List.mem_cons.mp hmem2 with h1 | h2
        · have : sr2.2.ts = best.ts := by
            rw [← h1]
          rw [this, hbts]
        · have hs := sortFresh_sorted (freshReadings now srcs)
          rw [hsf] at hs
          have hle := (List.pairwise_cons.mp hs).1 _ h2
          rw [newestFirst] at hle
          rw [← hbts]
          exact hle
  · intro hstale ma hmem
    rw [recomputeAggregatedState, List.mem_filterMap] at hmem
    obtain ⟨p, hp, hf⟩ := hmem
    rw [Option.map_eq_some'] at hf
    obtain ⟨a, ha, hpa⟩ := hf
    have hp1 : p.1 = metric := congrArg Prod.fst hpa
    have hpsrcs : p.2 = srcs := by
      have hpmem : (metric, p.2) ∈ ingestAll events := by
        rw [← hp1]
        exact hp
      exact assoc_unique (ingestAll events) hkeys hpmem hm
    have hempty : freshReadings now srcs = [] := by
      rw [freshReadings, List.filterMap_eq_nil_iff]
      intro sr hsr
      rw [if_neg (hstale sr hsr)]
    rw [hpsrcs, hempty] at ha
    have hnone : aggOfFresh (sortFresh []) = none := rfl
    rw [hnone] at ha
    cases ha

/-- Evaluation of the C1 theorem: after apple reports HR 73 at t = 1 s and
google HR 75 at t = 5 s, querying at t = 5.1 s reports value 75 from the
freshest reading, 100 ms old. -/
theorem speed_layer_freshness_check :
    ∃ sr ∈ c1Srcs, 5100 - sr.2.ts < FRESHNESS_WINDOW_MS ∧
      (75 : ℚ) = sr.2.value ∧ (100 : Int) = 5100 - sr.2.ts ∧ (100 : Int) ≤ 10000 ∧
      ∀ sr2 ∈ c1Srcs, 5100 - sr2.2.ts < FRESHNESS_WINDOW_MS → sr2.2.ts ≤ sr.2.ts :=
  (speed_layer_freshness c1Events 5100 "heart_rate" c1Srcs (by decide)).1
    ⟨75, ["google", "apple"], 100, 2⟩ (by decide)

/-! ### Helper lemmas: deviation checker -/

theorem hrvCheck_metric (b : BaselineRow) (o : Option ℚ) (d : Deviation)
    (h : hrvCheck b o = some d) : d.metric = "hrv_ms" := by
  match o with
  | none => cases h
  | some x =>
    simp only [hrvCheck] at h
    repeat' split at h
    all_goals (cases h <;> rfl)

theorem spo2Check_metric (b : BaselineRow) (o : Option ℚ) (d : Deviation)
    (h : spo2Check b o = some d) : d.metric = "spo2_percent" := by
  match o with
  | none => cases h
  | some x =>
    simp only [spo2Check] at h
    split at h
    · split at h
      · injection h with h2
        rw [← h2]
      · cases h
    · cases h

theorem tempCheck_metric (b : BaselineRow) (o : Option ℚ) (d : Deviation)
    (h : tempCheck b o = some d) : d.metric = "skin_temp_c" := by
  match o with
  | none => cases h
  | some x =>
    simp only [tempCheck] at h
    split at h
    · split at h
      · injection h with h2
        rw [← h2]
      · cases h
    · cases h

theorem hrCheck_cond (b : BaselineRow) (x : ℚ) (d : Deviation)
    (h : hrCheck b (some x) = some d) : |hrPct b x| > 15 ∨ |hrZ b x| > 2 := by
  simp only [hrCheck] at h
  split at h
  · split at h
    · assumption
    · cases h
  · cases h

/-- C5 as stated is wrong at zero-valued readings: on the concrete stored
accumulator `c5Acc` (mean activity 20), an event with activity reading 0
leaves the mean at 20 instead of the claimed α·0 + (1−α)·20 = 18; and on
the stored row `c5Row` (mean HR 72, 20 data points) a current HR of 0 is a
100 % deviation of heart rate yet no deviation is reported. -/
theorem baseline_ema_claim_cex :
    ¬ ((autoUpdateExisting c5Acc c5ZeroActivity).avg_activity
        = EMA_ALPHA * 0 + (1 - EMA_ALPHA) * c5Acc.avg_activity) ∧
    ((10 : Int) ≤ c5Row.data_points ∧ |hrPct c5Row 0| > 15 ∧
      getDeviationAlert (some c5Row) c5ZeroHr = none) := by
  refine ⟨?_, by decide, ?_, ?_⟩
  · norm_num [autoUpdateExisting, emaUpd, EMA_ALPHA, c5Acc, c5ZeroActivity, emptyV]
  · norm_num [hrPct, c5Row]
  · norm_num [getDeviationAlert, deviationsOf, hrCheck, hrvCheck, spo2Check, tempCheck,
      c5Row, c5ZeroHr, emptyV, List.insertionSort]

/-- C5 (amended): for a non-zero reading x against an existing baseline
row, the mean updates by μ' = 0.1·x + 0.9·μ and the stored running std by
σ' = sqrt(0.9·σ² + 0.1·(x − μ')²) (here tracked as its square); deviation
checking returns nothing below 10 data points, and for a non-zero current
heart rate against a non-zero stored mean an alert carries a heart-rate
deviation exactly when |%Δ| > 15 or |z| > 2. -/
theorem baseline_ema_and_deviation :
    (∀ (b : BaselineAcc) (v : VEvent) (x : ℚ), v.heart_rate = some x → x ≠ 0 →
      (autoUpdateExisting b v).avg_heart_rate = 1/10 * x + 9/10 * b.avg_heart_rate ∧
      (autoUpdateExisting b v).stdSq_heart_rate
        = 9/10 * b.stdSq_heart_rate + 1/10 * (x - (autoUpdateExisting b v).avg_heart_rate) ^ 2) ∧
    (∀ (b : BaselineAcc) (v : VEvent) (x : ℚ), v.hrv_ms = some x → x ≠ 0 →
      (autoUpdateExisting b v).avg_hrv = 1/10 * x + 9/10 * b.avg_hrv ∧
      (autoUpdateExisting b v).stdSq_hrv
        = 9/10 * b.stdSq_hrv + 1/10 * (x - (autoUpdateExisting b v).avg_hrv) ^ 2) ∧
    (∀ (b : BaselineAcc) (v : VEvent) (x : ℚ), v.spo2_percent = some x → x ≠ 0 →
      (autoUpdateExisting b v).avg_spo2 = 1/10 * x + 9/10 * b.avg_spo2 ∧
      (autoUpdateExisting b v).stdSq_spo2
        = 9/10 * b.stdSq_spo2 + 1/10 * (x - (autoUpdateExisting b v).avg_spo2) ^ 2) ∧
    (∀ (b : BaselineAcc) (v : VEvent) (x : ℚ), v.skin_temp_c = some x → x ≠ 0 →
      (autoUpdateExisting b v).avg_temp = 1/10 * x + 9/10 * b.avg_temp ∧
      (autoUpdateExisting b v).stdSq_temp
        = 9/10 * b.stdSq_temp + 1/10 * (x - (autoUpdateExisting b v).avg_temp) ^ 2) ∧
    (∀ (b : BaselineAcc) (v : VEvent) (x : ℚ), v.activity_level = some x → x ≠ 0 →
      (autoUpdateExisting b v).avg_activity = 1/10 * x + 9/10 * b.avg_activity) ∧
    (∀ (row : BaselineRow) (v : VEvent), row.data_points < 10 →
      getDeviationAlert (some row) v = none) ∧
    (∀ v : VEvent, getDeviationAlert none v = none) ∧
    (∀ (row : BaselineRow) (v : VEvent) (x : ℚ),
      10 ≤ row.data_points → v.heart_rate = some x → x ≠ 0 → row.avg_heart_rate ≠ 0 →
      ((∃ res, getDeviationAlert (some row) v = some res ∧
          ∃ d ∈ res.deviations, d.metric = "heart_rate")
        ↔ (|hrPct row x| > 15 ∨ |hrZ row x| > 2))) := by
  refine ⟨?_, ?_, ?_, ?_, ?_, ?_, ?_, ?_⟩
  · intro b v x hx hx0
    constructor
    · show emaUpd b.avg_heart_rate v.heart_rate = _
      rw [hx]
      simp only [emaUpd, EMA_ALPHA]
      rw [if_pos hx0]
      ring
    · show stdSqUpd b.stdSq_heart_rate v.heart_rate (emaUpd b.avg_heart_rate v.heart_rate)
        = 9/10 * b.stdSq_heart_rate
            + 1/10 * (x - emaUpd b.avg_heart_rate v.heart_rate) ^ 2
      rw [hx]
      simp only [stdSqUpd, EMA_ALPHA]
      rw [if_pos hx0]
      ring
  · intro b v x hx hx0
    constructor
    · show emaUpd b.avg_hrv v.hrv_ms = _
      rw [hx]
      simp only [emaUpd, EMA_ALPHA]
      rw [if_pos hx0]
      ring
    · show stdSqUpd b.stdSq_hrv v.hrv_ms (emaUpd b.avg_hrv v.hrv_ms)
        = 9/10 * b.stdSq_hrv + 1/10 * (x - emaUpd b.avg_hrv v.hrv_ms) ^ 2
      rw [hx]
      simp only [stdSqUpd, EMA_ALPHA]
      rw [if_pos hx0]
      ring
  · intro b v x hx hx0
    constructor
    · show emaUpd b.avg_spo2 v.spo2_percent = _
      rw [hx]
      simp only [emaUpd, EMA_ALPHA]
      rw [if_pos hx0]
      ring
    · show stdSqUpd b.stdSq_spo2 v.spo2_percent (emaUpd b.avg_spo2 v.spo2_percent)
        = 9/10 * b.stdSq_spo2 + 1/10 * (x - emaUpd b.avg_spo2 v.spo2_percent) ^ 2
      rw [hx]
      simp only [stdSqUpd, EMA_ALPHA]
      rw [if_pos hx0]
      ring
  · intro b v x hx hx0
    constructor
    · show emaUpd b.avg_temp v.skin_temp_c = _
      rw [hx]
      simp only [emaUpd, EMA_ALPHA]
      rw [if_pos hx0]
      ring
    · show stdSqUpd b.stdSq_temp v.skin_temp_c (emaUpd b.avg_temp v.skin_temp_c)
        = 9/10 * b.stdSq_temp + 1/10 * (x - emaUpd b.avg_temp v.skin_temp_c) ^ 2
      rw [hx]
      simp only [stdSqUpd, EMA_ALPHA]
      rw [if_pos hx0]
      ring
  · intro b v x hx hx0
    show emaUpd b.avg_activity v.activity_level = _
    rw [hx]
    simp only [emaUpd, EMA_ALPHA]
    rw [if_pos hx0]
    ring
  · intro row v h
    simp only [getDeviationAlert]
    rw [if_pos h]
  · intro v
    rfl
  · intro row v x hdp hx hx0 hmu
    simp only [getDeviationAlert]
    rw [if_neg (by omega : ¬ row.data_points < 10)]
    constructor
    · rintro ⟨res, hres, d, hd, hmet⟩
      by_cases hlen : (List.insertionSort sevOrder (deviationsOf row v)).length = 0
      · rw [if_pos hlen] at hres
        cases hres
      · rw [if_neg hlen] at hres
        injection hres with hres2
        rw [← hres2] at hd
        have hd2 : d ∈ deviationsOf row v :=
          ((List.perm_insertionSort sevOrder (deviationsOf row v)).mem_iff).mp hd
        rw [deviationsOf, List.mem_filterMap] at hd2
        obtain ⟨o, ho, hoid⟩ := hd2
        simp only [id_eq] at hoid
        subst hoid
        simp only [List.mem_cons, List.not_mem_nil, or_false] at ho
        rcases ho with ho | ho | ho | ho
        · refine hrCheck_cond row x d ?_
          rw [← hx]
          exact ho.symm
        · exact absurd (hrvCheck_metric row v.hrv_ms d ho.symm) (by rw [hmet]; decide)
        · exact absurd (spo2Check_metric row v.spo2_percent d ho.symm) (by rw [hmet]; decide)
        · exact absurd (tempCheck_metric row v.skin_temp_c d ho.symm) (by rw [hmet]; decide)
    · intro hc
      have hsome : hrCheck row v.heart_rate
          = some ⟨"heart_rate", x, round0 row.avg_heart_rate, round1 (hrPct row x),
              |hrPct row x| > 25⟩ := by
        rw [hx]
        simp only [hrCheck]
        rw [if_pos ⟨hx0, hmu⟩, if_pos hc]
      have hd0 : (⟨"heart_rate", x, round0 row.avg_heart_rate, round1 (hrPct row x),
          |hrPct row x| > 25⟩ : Deviation) ∈ deviationsOf row v := by
        rw [deviationsOf, List.mem_filterMap]
        refine ⟨hrCheck row v.heart_rate, ?_, ?_⟩
        · exact List.mem_cons_self _ _
        · rw [hsome]
          rfl
      have hd1 : (⟨"heart_rate", x, round0 row.avg_heart_rate, round1 (hrPct row x),
          |hrPct row x| > 25⟩ : Deviation) ∈ List.insertionSort sevOrder (deviationsOf row v) :=
        ((List.perm_insertionSort sevOrder (deviationsOf row v)).mem_iff).mpr hd0
      have hlen : ¬ ((List.insertionSort sevOrder (deviationsOf row v)).length = 0) := by
        intro h0
        rw [List.length_eq_zero.mp h0] at hd1
        cases hd1
      rw [if_neg hlen]
      exact ⟨_, rfl, _, hd1, rfl⟩

/-- Evaluation of the C5 theorem: a 95 bpm reading against the 72 bpm
baseline updates mean and variance by the EMA formulas, a 5-point history
yields no deviation alert, and at 31.9 % above the personal mean the
heart-rate deviation is reported. -/
theorem baseline_ema_and_deviation_check :
    ((autoUpdateExisting c5Acc c5HighHr).avg_heart_rate
        = 1/10 * 95 + 9/10 * c5Acc.avg_heart_rate ∧
     (autoUpdateExisting c5Acc c5HighHr).stdSq_heart_rate
        = 9/10 * c5Acc.stdSq_heart_rate
            + 1/10 * ((95 : ℚ) - (autoUpdateExisting c5Acc c5HighHr).avg_heart_rate) ^ 2) ∧
    getDeviationAlert (some c5RowLow) c5HighHr = none ∧
    ((∃ res, getDeviationAlert (some c5Row) c5HighHr = some res ∧
        ∃ d ∈ res.deviations, d.metric = "heart_rate")
      ↔ (|hrPct c5Row 95| > 15 ∨ |hrZ c5Row 95| > 2)) :=
  ⟨baseline_ema_and_deviation.1 c5Acc c5HighHr 95 rfl (by norm_num),
   baseline_ema_and_deviation.2.2.2.2.2.1 c5RowLow c5HighHr (by decide),
   baseline_ema_and_deviation.2.2.2.2.2.2.2 c5Row c5HighHr 95 (by decide) rfl
     (by norm_num) (by decide)⟩

/-! ### Helper lemmas: prediction engine -/

theorem sum_map_sq_nonneg {α : Type} (l : List α) (f : α → ℚ) :
    0 ≤ (l.map (fun a => (f a) ^ 2)).sum := by
  apply List.sum_nonneg
  intro x hx
  rw [List.mem_map] at hx
  obtain ⟨a, _, rfl⟩ := hx
  positivity

theorem r2_formula_le_one (sres stot : ℚ) (h : 0 ≤ sres) :
    (if stot > 0 then 1 - sres / stot else 0) ≤ 1 := by
  split_ifs with hs
  · have hdiv : 0 ≤ sres / stot := div_nonneg h (le_of_lt hs)
    linarith
  · norm_num

theorem linReg_r2_bounds (xs ys : List ℚ) :
    0 ≤ (linearRegression xs ys).2.2 ∧ (linearRegression xs ys).2.2 ≤ 1 := by
  simp only [linearRegression]
  split_ifs with h1 h2 h3
  · norm_num
  · norm_num
  · constructor
    · exact le_max_left 0 _
    · apply max_le
      · norm_num
      · have hres : 0 ≤ ((xs.zip ys).map (fun p =>
            (p.2 - (((xs.length : ℚ) * ((xs.zip ys).map (fun p => p.1 * p.2)).sum
                - xs.sum * ys.sum)
              / ((xs.length : ℚ) * (xs.map (fun x => x * x)).sum - xs.sum * xs.sum) * p.1
              + (ys.sum - ((xs.length : ℚ) * ((xs.zip ys).map (fun p => p.1 * p.2)).sum
                  - xs.sum * ys.sum)
                / ((xs.length : ℚ) * (xs.map (fun x => x * x)).sum - xs.sum * xs.sum)
                * xs.sum) / (xs.length : ℚ))) ^ 2)).sum := by
          apply sum_map_sq_nonneg
        have hdiv : 0 ≤ _ / ((ys.map (fun y => (y - ys.sum / (xs.length : ℚ)) ^ 2)).sum) :=
          div_nonneg hres (le_of_lt h3)
        linarith
  · simp

theorem thresholdLoop_conf (metric : String) (current slope conf maxHours : ℚ) :
    ∀ (entries : List TEntry) (p : Prediction),
      thresholdLoop metric current slope conf maxHours entries = some p →
      p.confidence = round2 conf := by
  intro entries
  induction entries with
  | nil =>
    intro p h
    cases h
  | cons t rest ih =>
    intro p h
    simp only [thresholdLoop] at h
    split_ifs at h
    all_goals
      first
        | (injection h with h2
           rw [← h2])
        | exact ih p h

theorem round2_le_cap (x : ℚ) (h : x ≤ 4/5) : round2 x ≤ 4/5 := by
  rw [round2]
  have h2 : round (100 * x) ≤ 80 := by
    rw [round_eq]
    have hf : ⌊100 * x + 1/2⌋ ≤ ⌊(80 : ℚ) + 1/2⌋ := Int.floor_mono (by linarith)
    have h80 : ⌊(80 : ℚ) + 1/2⌋ = 80 := by norm_num [Int.floor_eq_iff]
    omega
  have h3 : ((round (100 * x) : ℤ) : ℚ) ≤ 80 := by exact_mod_cast h2
  linarith

set_option maxHeartbeats 1600000 in
/-- C6: a threshold-crossing prediction is emitted only when the regression
acceptance score R² · recency_factor is at least 0.3 (the code in fact
demands conf = R² · recency · 0.8 ≥ 0.3, a stricter bound), and every
emitted prediction's confidence is at most 0.8. -/
theorem prediction_confidence_gate (metric : String) (vitals : List VEvent) (maxHours : ℚ)
    (p : Prediction) (h : predictThresholdCrossing metric vitals maxHours = some p) :
    3/10 ≤ regressionScore metric vitals ∧ p.confidence ≤ 4/5 := by
  simp only [predictThresholdCrossing] at h
  split at h
  · cases h
  · split_ifs at h with hv hs hc
    have hconf : (predictMetricValue (predSamples metric vitals) 1).2.2
        = (regrOf (predSamples metric vitals)).2.2
            * recencyFactor (predSamples metric vitals) * (4/5) := by
      simp only [predictMetricValue, if_neg hs]
    have hre : (regrOf (predSamples metric vitals)).2.2
        = (linearRegression (regXs (predSamples metric vitals))
            ((predSamples metric vitals).map (fun s => s.value))).2.2 := rfl
    have hrecf : recencyFactor (predSamples metric vitals)
        = min 1 (spanHours (predSamples metric vitals) / 2) := rfl
    have hr2 := linReg_r2_bounds (regXs (predSamples metric vitals))
      ((predSamples metric vitals).map (fun s => s.value))
    have hrec : min (1 : ℚ) (spanHours (predSamples metric vitals) / 2) ≤ 1 :=
      min_le_left _ _
    rw [hconf, hre, hrecf] at hc
    have hge0 := le_of_not_lt hc
    have hprod : (linearRegression (regXs (predSamples metric vitals))
        ((predSamples metric vitals).map (fun s => s.value))).2.2
        * min (1 : ℚ) (spanHours (predSamples metric vitals) / 2) ≤ 1 := by
      rcases le_or_lt (min (1 : ℚ) (spanHours (predSamples metric vitals) / 2)) 0 with hr | hr
      · nlinarith [hr2.1, hr2.2]
      · nlinarith [hr2.1, hr2.2]
    constructor
    · show 3/10 ≤ (regrOf (predSamples metric vitals)).2.2
        * recencyFactor (predSamples metric vitals)
      rw [hre, hrecf]
      linarith
    · have hcnf := thresholdLoop_conf metric _ _ _ maxHours _ p h
      rw [hcnf, hconf, hre, hrecf]
      apply round2_le_cap
      linarith

/-- Evaluation of the C6 theorem on `c6Vitals` (perfect linear rise over
two hours): a prediction is emitted, the acceptance score is 1 ≥ 0.3, and
the emitted confidence is exactly 0.8. -/
theorem prediction_confidence_gate_check :
    3/10 ≤ regressionScore "heart_rate" c6Vitals ∧ c6Pred.confidence ≤ 4/5 :=
  prediction_confidence_gate "heart_rate" c6Vitals 6 c6Pred (by
    norm_num [predictThresholdCrossing, thresholdsFor, predSamples, fieldOf, c6Vitals,
      emptyV, List.insertionSort, List.orderedInsert, tsAsc, predictMetricValue, regrOf,
      regXs, linearRegression, baseTs, lastTs, spanHours, recencyFactor, thresholdLoop,
      hrThresholds, round1, round2, round_eq, c6Pred, Int.floor_eq_iff])

end Telara
